import Mathlib

/-!
# Verification of the dispatch-and-lifecycle core of a cleaning-service backend

Shallow embedding of the job state machine (`app/services/job_state_machine.py`),
the cleaner-action API layer (`app/api/cleaner_actions.py`), the allocation
engine (`app/services/allocation_engine.py`, `app/services/cleaner_assignment.py`),
the SLA monitor (`app/services/sla_monitor.py`) and the booking-price helper
(`app/api/bookings.py`).

Modelling conventions:
* Timestamps are rationals, measured in minutes (a `timedelta(minutes=m)` is the
  rational `m`; `timedelta(hours=h)` is `h * 60`).
* Python `Decimal` values are rationals; `Decimal.quantize(Decimal("0.01"))`
  with the default context (ROUND_HALF_EVEN) is `quantize2`.
* Nullable columns are `Option`; SQLAlchemy `query(...).first()` is `List.find?`
  on the corresponding table list and in-place row mutation updates the first
  matching row.
* External best-effort collaborators (redis cache writes, SMS) are outside the
  modelled state; the wallet collaborator is modelled by a `walletAvailable`
  flag on the database state, reproducing the `try/except` blocks that swallow
  its failures.  Event publication is modelled by appending to an event list.
-/

/-- Round a rational to the nearest integer, ties to the even integer
(Python `Decimal`'s default `ROUND_HALF_EVEN`). -/
def roundHalfEven (q : ℚ) : ℤ :=
  let f : ℤ := ⌊q⌋
  let r : ℚ := q - f
  if r < 1/2 then f
  else if r > 1/2 then f + 1
  else if f % 2 = 0 then f else f + 1

/-- `Decimal.quantize(Decimal("0.01"))` under the default context:
round to two decimal places, ties to even. -/
def quantize2 (q : ℚ) : ℚ := (roundHalfEven (q * 100) : ℚ) / 100

/-- Pricing-relevant columns of the `services` table
(`Service.base_price`, `price_per_sqft`, `price_per_bedroom`,
`price_per_bathroom`; the per-unit columns are nullable). -/
structure ServicePricing where
  basePrice : ℚ
  pricePerSqft : Option ℚ
  pricePerBedroom : Option ℚ
  pricePerBathroom : Option ℚ
deriving Repr, DecidableEq

/-- The dictionary returned by `_calculate_booking_price` in `app/api/bookings.py`. -/
structure PriceBreakdown where
  basePrice : ℚ
  sizeAdjustment : ℚ
  addOnsTotal : ℚ
  subtotalBeforeDynamic : ℚ
  demandMultiplier : ℚ
  rushPremium : ℚ
  dynamicAdjustment : ℚ
  discountAmount : ℚ
  taxAmount : ℚ
  totalPrice : ℚ
deriving Repr, DecidableEq

/-- `_calculate_booking_price` (`app/api/bookings.py`, lines 36-89).
`addOns` is the list of `addon.price` values. -/
def calculateBookingPrice (service : ServicePricing)
    (propertySizeSqft bedrooms bathrooms : ℕ) (addOns : List ℚ)
    (discountAmount demandMultiplier rushPremium : ℚ) : PriceBreakdown :=
  let basePrice := service.basePrice
  let sizeAdjustment := (service.pricePerSqft.getD 0) * propertySizeSqft
  let bedroomAdjustment := (service.pricePerBedroom.getD 0) * bedrooms
  let bathroomAdjustment := (service.pricePerBathroom.getD 0) * bathrooms
  let addOnsTotal := addOns.sum
  let subtotal := basePrice + sizeAdjustment + bedroomAdjustment + bathroomAdjustment + addOnsTotal
  let finalMultiplier := demandMultiplier * rushPremium
  let adjustedSubtotal := quantize2 (subtotal * finalMultiplier)
  let dynamicAdjustment := adjustedSubtotal - subtotal
  let taxRate : ℚ := 5/100
  let taxableAmount := adjustedSubtotal - discountAmount
  let taxAmount := quantize2 (taxableAmount * taxRate)
  let total := adjustedSubtotal - discountAmount + taxAmount
  { basePrice := quantize2 basePrice
    sizeAdjustment := quantize2 (sizeAdjustment + bedroomAdjustment + bathroomAdjustment)
    addOnsTotal := quantize2 addOnsTotal
    subtotalBeforeDynamic := quantize2 subtotal
    demandMultiplier := demandMultiplier
    rushPremium := rushPremium
    dynamicAdjustment := quantize2 dynamicAdjustment
    discountAmount := quantize2 discountAmount
    taxAmount := taxAmount
    totalPrice := quantize2 total }

/-- `BookingStatus` (`app/models/booking.py`). -/
inductive BookingStatus where
  | pending | pendingAssignment | confirmed | assigned | inProgress
  | paused | completed | cancelled | failed | refunded | noShow
deriving Repr, DecidableEq, Fintype

/-- The `.value` string of each `BookingStatus` member. -/
def BookingStatus.value : BookingStatus → String
  | .pending => "pending"
  | .pendingAssignment => "pending_assignment"
  | .confirmed => "confirmed"
  | .assigned => "assigned"
  | .inProgress => "in_progress"
  | .paused => "paused"
  | .completed => "completed"
  | .cancelled => "cancelled"
  | .failed => "failed"
  | .refunded => "refunded"
  | .noShow => "no_show"

/-- `PaymentStatus` (`app/models/booking.py`). -/
inductive PaymentStatus where
  | pending | processing | paid | failed | refunded | partiallyRefunded
deriving Repr, DecidableEq

/-- `CleanerStatus` (`app/models/cleaner.py`): availability states of a
legacy `CleanerProfile`. -/
inductive CleanerStatus where
  | available | busy | coolingDown | offline
deriving Repr, DecidableEq

/-- The `.value` string of each `CleanerStatus` member. -/
def CleanerStatus.value : CleanerStatus → String
  | .available => "available"
  | .busy => "busy"
  | .coolingDown => "cooling_down"
  | .offline => "offline"

/-- User roles as compared via `actor.role.value` in the source. -/
inductive Role where
  | customer | cleaner | admin
deriving Repr, DecidableEq

/-- The `.value` string of a role. -/
def Role.value : Role → String
  | .customer => "customer"
  | .cleaner => "cleaner"
  | .admin => "admin"

/-- `RegionCode` (`app/models/employee.py`). -/
inductive Region where
  | DXB | AUH | SHJ | AJM | RAK | FUJ | UAQ
deriving Repr, DecidableEq, Fintype

/-- `EmployeeAccountStatus` (`app/models/employee.py`). -/
inductive EmployeeAccountStatus where
  | active | suspended | terminated
deriving Repr, DecidableEq

/-- `EmployeeCleanerStatus` (`app/models/employee.py`). -/
inductive EmployeeCleanerStatus where
  | available | busy | coolingDown | offline
deriving Repr, DecidableEq

/-- A row of the `bookings` table (`app/models/booking.py`), restricted to the
columns the dispatch core reads or writes.  Timestamps are rational minutes;
`addressCity` inlines `booking.address.city` (`none` when the booking has no
address or the address has no city). -/
structure Booking where
  id : Nat
  bookingNumber : String
  version : Int
  customerId : Nat
  cleanerId : Option Nat
  assignedEmployeeId : Option Nat
  addressCity : Option String
  scheduledDate : ℚ
  scheduledEndTime : Option ℚ
  slaDeadline : Option ℚ
  assignedAt : Option ℚ
  actualStartTime : Option ℚ
  pausedAt : Option ℚ
  resumedAt : Option ℚ
  actualEndTime : Option ℚ
  failedAt : Option ℚ
  failureReason : Option String
  status : BookingStatus
  paymentStatus : PaymentStatus
  totalPrice : Option ℚ
  cleanerNotes : Option String
  cancelledAt : Option ℚ
  cancelledById : Option Nat
  cancellationReason : Option String
  createdAt : ℚ
  updatedAt : ℚ
deriving Repr, DecidableEq

/-- A row of the `cleaner_profiles` table (`app/models/cleaner.py`). -/
structure CleanerProfile where
  userId : Nat
  status : CleanerStatus
  activeJobCount : Int
  cooldownExpiresAt : Option ℚ
  totalJobsCompleted : Option Int
  totalJobsFailed : Option Int
  updatedAt : ℚ
deriving Repr, DecidableEq

/-- A row of the `users` table, restricted to what the core reads. -/
structure User where
  id : Nat
  role : Role
  fullName : String
deriving Repr, DecidableEq

/-- A row of the `employees` table (`app/models/employee.py`), restricted to
the columns the allocation engine reads.  The UUID primary key is modelled
as a natural number. -/
structure Employee where
  id : Nat
  employeeId : String
  fullName : String
  regionCode : Region
  accountStatus : EmployeeAccountStatus
  cleanerStatus : EmployeeCleanerStatus
  rating : Option ℚ
deriving Repr, DecidableEq

/-- A row of the `wallets` table (`app/models/wallet.py`), restricted to the
balance totals touched by `create_transaction`. -/
structure Wallet where
  userId : Nat
  balance : ℚ
  totalCredits : ℚ
  totalDebits : ℚ
  totalCashback : ℚ
  totalReferralEarnings : ℚ
deriving Repr, DecidableEq

/-- Wallet transaction types used by the completion-reward path. -/
inductive TransactionType where
  | cashback | referral | credit
deriving Repr, DecidableEq

/-- A row of the wallet-transactions table, as written by `create_transaction`. -/
structure WalletTxn where
  walletUserId : Nat
  type : TransactionType
  amount : ℚ
  description : String
deriving Repr, DecidableEq

/-- `ReferralStatus` (`app/models/wallet.py`). -/
inductive ReferralStatus where
  | pending | completed | expired
deriving Repr, DecidableEq

/-- A row of the referrals table, restricted to what
`_complete_pending_referral` reads and writes. -/
structure Referral where
  id : Nat
  referrerId : Nat
  referredId : Nat
  status : ReferralStatus
  expiresAt : Option ℚ
  completedAt : Option ℚ
  firstBookingId : Option Nat
deriving Repr, DecidableEq

/-- A row of `booking_status_history` (`app/models/booking.py`). -/
structure HistoryRow where
  bookingId : Nat
  previousStatus : Option BookingStatus
  newStatus : BookingStatus
  changedById : Option Nat
  reason : String
deriving Repr, DecidableEq

/-- The `{status, version}` snapshot stored in an audit row. -/
structure StatusVersion where
  status : String
  version : Int
deriving Repr, DecidableEq

/-- A row of `audit_logs` as written by `_create_audit_log`.  The
`metadata` dictionary is modelled by its only used entry, the
`idempotency_key` string. -/
structure AuditRow where
  entityType : String
  entityId : Nat
  action : String
  userId : Nat
  actorType : String
  previousState : StatusVersion
  newState : StatusVersion
  reason : Option String
  extraData : Option String
deriving Repr, DecidableEq

/-- Event types published by the core (`app/services/events.py`). -/
inductive EventType where
  | jobAssigned | jobStarted | jobResumed | jobPaused | jobCompleted
  | jobCancelled | jobFailed | jobDelayed | cleanerStatusChanged
  | cleanerOfflineAlert
deriving Repr, DecidableEq

/-- A published event with the payload fields the core fills in. -/
inductive Event where
  | jobEvent (etype : EventType) (jobId : Nat) (bookingNumber : String)
      (status previousStatus : String) (cleanerId : Option Nat) (customerId : Nat)
  | cleanerEvent (cleanerId : Nat) (status : String) (previousStatus : Option String)
deriving Repr, DecidableEq

/-- The persistent state visible to the dispatch core: the relational tables
plus the published-event log.  `walletAvailable` models whether calls into the
wallet collaborator succeed (its failures are caught and swallowed by the
state machine). -/
structure DB where
  jobs : List Booking
  profiles : List CleanerProfile
  users : List User
  employees : List Employee
  wallets : List Wallet
  walletTxns : List WalletTxn
  referrals : List Referral
  histories : List HistoryRow
  audits : List AuditRow
  events : List Event
  queueCache : List (Region × List (Nat × Nat))
  walletAvailable : Bool
deriving Repr, DecidableEq

/-- Update the first element satisfying `p` (an in-place mutation of the row
returned by `query(...).first()`). -/
def updateFirst (p : α → Bool) (f : α → α) : List α → List α
  | [] => []
  | x :: xs => if p x then f x :: xs else x :: updateFirst p f xs

/-- `JobStateMachine.VALID_TRANSITIONS` (`app/services/job_state_machine.py`,
lines 49-84). -/
def validTransitions : BookingStatus → List BookingStatus
  | .pending => [.pendingAssignment, .cancelled]
  | .pendingAssignment => [.assigned, .cancelled]
  | .confirmed => [.assigned, .cancelled]
  | .assigned => [.inProgress, .cancelled]
  | .inProgress => [.paused, .completed, .failed, .cancelled]
  | .paused => [.inProgress, .cancelled]
  | .completed => []
  | .cancelled => [.refunded]
  | .failed => [.pendingAssignment]
  | .refunded => []
  | .noShow => []

/-- `JobStateMachine.can_transition`. -/
def canTransition (currentStatus newStatus : BookingStatus) : Bool :=
  newStatus ∈ validTransitions currentStatus

/-- `SLA_START_THRESHOLD_MINUTES` on `JobStateMachine`. -/
def SLA_START_THRESHOLD_MINUTES : ℚ := 10

/-- `MAX_PAUSE_DURATION_MINUTES` on `JobStateMachine`. -/
def MAX_PAUSE_DURATION_MINUTES : ℚ := 30

/-- `COOLDOWN_DURATION_MINUTES` on `JobStateMachine`. -/
def COOLDOWN_DURATION_MINUTES : ℚ := 15

/-- The message built by `InvalidTransitionError.__init__`. -/
def invalidTransitionMessage (currentStatus requestedStatus : String) : String :=
  "Invalid transition from " ++ currentStatus ++ " to " ++ requestedStatus

/-- The exceptions a `transition` call can surface
(`NotFoundException`, `InvalidTransitionError`, `ConcurrentModificationError`,
`ForbiddenException`, `BadRequestException`). -/
inductive SMError where
  | notFound (message : String)
  | invalidTransition (message : String)
  | concurrentModification (message : String)
  | forbidden (message : String)
  | badRequest (message : String)
deriving Repr, DecidableEq

/-- `JobStateMachine._update_cleaner_status` (lines 357-410): mutate the
`CleanerProfile` row of `cleanerId` (no-op when absent), and publish a
`CLEANER_STATUS_CHANGED` event when the status actually changed.  The
fire-and-forget cache write is outside the modelled state. -/
def updateCleanerStatus (db : DB) (now : ℚ) (cleanerId : Nat)
    (status : CleanerStatus) (cooldownMinutes : ℚ := 0) : DB :=
  match db.profiles.find? (fun p => p.userId == cleanerId) with
  | none => db
  | some profile =>
    let oldStatus := profile.status
    let mutate : CleanerProfile → CleanerProfile := fun p =>
      let p := { p with status := status, updatedAt := now }
      if status = .coolingDown ∧ cooldownMinutes > 0 then
        { p with cooldownExpiresAt := some (now + cooldownMinutes) }
      else if status = .available then
        { p with cooldownExpiresAt := none, activeJobCount := 0 }
      else if status = .busy then
        { p with activeJobCount := 1 }
      else p
    let db := { db with
      profiles := updateFirst (fun p => p.userId == cleanerId) mutate db.profiles }
    if oldStatus ≠ status then
      { db with events := db.events ++
          [.cleanerEvent cleanerId status.value (some oldStatus.value)] }
    else db

/-- `JobStateMachine._increment_cleaner_stats` (lines 412-422). -/
def incrementCleanerStats (db : DB) (cleanerId : Nat) (completed : Bool) : DB :=
  let bump : CleanerProfile → CleanerProfile := fun p =>
    if completed then
      { p with totalJobsCompleted := some (p.totalJobsCompleted.getD 0 + 1) }
    else
      { p with totalJobsFailed := some (p.totalJobsFailed.getD 0 + 1) }
  { db with profiles := updateFirst (fun p => p.userId == cleanerId) bump db.profiles }

/-- `get_or_create_wallet` (`app/api/wallet.py`, lines 78-92). -/
def getOrCreateWallet (db : DB) (userId : Nat) : DB × Wallet :=
  match db.wallets.find? (fun w => w.userId == userId) with
  | some w => (db, w)
  | none =>
    let w : Wallet := ⟨userId, 0, 0, 0, 0, 0⟩
    ({ db with wallets := db.wallets ++ [w] }, w)

/-- The credit branch of `create_transaction` (`app/api/wallet.py`):
update the wallet balances and append a transaction row.  Only credit-kind
transaction types (`CASHBACK`, `REFERRAL`, ...) are reached from the core. -/
def createCreditTransaction (db : DB) (walletUserId : Nat) (type : TransactionType)
    (amount : ℚ) (description : String) : DB :=
  let credit : Wallet → Wallet := fun w =>
    let w := { w with balance := w.balance + amount, totalCredits := w.totalCredits + amount }
    if type = .cashback then { w with totalCashback := w.totalCashback + amount }
    else if type = .referral then
      { w with totalReferralEarnings := w.totalReferralEarnings + amount }
    else w
  let db := { db with
    wallets := updateFirst (fun w => w.userId == walletUserId) credit db.wallets }
  { db with walletTxns := db.walletTxns ++ [⟨walletUserId, type, amount, description⟩] }

/-- `REFERRAL_REWARD_AMOUNT` (`app/api/referrals.py`). -/
def REFERRAL_REWARD_AMOUNT : ℚ := 50

/-- `add_referral_reward` (`app/api/referrals.py`, lines 124-146). -/
def addReferralReward (db : DB) (userId : Nat) (amount : ℚ) (description : String) : DB :=
  let (db, w) := getOrCreateWallet db userId
  createCreditTransaction db w.userId .referral amount description

/-- `JobStateMachine._complete_pending_referral` (lines 459-504).  The count of
completed bookings is taken over the job table as it stands when the action
runs, i.e. before the completing job's own status column is updated.  The
reward credit sits in a `try/except`; an unavailable wallet collaborator
leaves the referral row already marked completed. -/
def completePendingReferral (db : DB) (now : ℚ) (customerId bookingId : Nat) : DB :=
  match db.referrals.find? (fun r => r.referredId == customerId && r.status == .pending) with
  | none => db
  | some referral =>
    if (referral.expiresAt.map (fun e => decide (now > e))).getD false then
      let expire : Referral → Referral := fun r => { r with status := .expired }
      { db with referrals := updateFirst (fun r => r.id == referral.id) expire db.referrals }
    else
      let completedCount := (db.jobs.filter
        (fun j => j.customerId == customerId && j.status == .completed)).length
      if completedCount = 1 then
        let markDone : Referral → Referral := fun r =>
          { r with status := .completed, completedAt := some now,
                   firstBookingId := some bookingId }
        let db := { db with
          referrals := updateFirst (fun r => r.id == referral.id) markDone db.referrals }
        if db.walletAvailable then
          addReferralReward db referral.referrerId REFERRAL_REWARD_AMOUNT
            "Referral reward - friend completed first booking"
        else db
      else db

/-- `CASHBACK_PERCENTAGE` in `_process_completion_rewards`. -/
def CASHBACK_PERCENTAGE : ℚ := 5/100

/-- `JobStateMachine._process_completion_rewards` (lines 424-457): credit 5%
cashback on the booking total to the customer's wallet (failures of the wallet
collaborator are swallowed), then complete any pending referral. -/
def processCompletionRewards (db : DB) (now : ℚ) (job : Booking) : DB :=
  let db :=
    match job.totalPrice with
    | some total =>
      if total > 0 then
        let cashbackAmount := quantize2 (total * CASHBACK_PERCENTAGE)
        if cashbackAmount > 0 then
          if db.walletAvailable then
            let (db, w) := getOrCreateWallet db job.customerId
            createCreditTransaction db w.userId .cashback cashbackAmount
              ("5% cashback from booking #" ++ job.bookingNumber)
          else db
        else db
      else db
    | none => db
  completePendingReferral db now job.customerId job.id

/-- `JobStateMachine._validate_transition` (lines 264-286): the pre-transition
guards, returning the first exception raised (`none` when all pass). -/
def validateTransition (job : Booking) (newStatus : BookingStatus) (actor : User)
    (now : ℚ) : Option SMError :=
  if newStatus = .inProgress ∧ actor.role.value = "cleaner" ∧ job.cleanerId ≠ some actor.id then
    some (.forbidden "You are not assigned to this job")
  else if job.status = .paused ∧ newStatus = .inProgress then
    match job.pausedAt with
    | some p =>
      if now - p > MAX_PAUSE_DURATION_MINUTES then
        some (.badRequest "Job was paused for more than 30 minutes")
      else none
    | none => none
  else none

/-- `JobStateMachine._execute_transition_actions` (lines 288-355): the
side effects of a transition, applied to the in-memory job object and the
rest of the database.  Returns the updated database and job. -/
def executeTransitionActions (db : DB) (now : ℚ) (job : Booking)
    (oldStatus newStatus : BookingStatus) (actor : User) (reason : Option String) :
    DB × Booking :=
  if newStatus = .assigned then
    let job := { job with
      assignedAt := some now,
      slaDeadline := some (job.scheduledDate + SLA_START_THRESHOLD_MINUTES) }
    match job.cleanerId with
    | some cid => (updateCleanerStatus db now cid .busy, job)
    | none => (db, job)
  else if newStatus = .inProgress then
    if oldStatus = .assigned then (db, { job with actualStartTime := some now })
    else if oldStatus = .paused then (db, { job with resumedAt := some now })
    else (db, job)
  else if newStatus = .paused then
    (db, { job with pausedAt := some now })
  else if newStatus = .completed then
    let job := { job with actualEndTime := some now }
    let db :=
      match job.cleanerId with
      | some cid =>
        let db := updateCleanerStatus db now cid .coolingDown COOLDOWN_DURATION_MINUTES
        incrementCleanerStats db cid true
      | none => db
    (processCompletionRewards db now job, job)
  else if newStatus = .failed then
    let job := { job with failedAt := some now, failureReason := reason }
    match job.cleanerId with
    | some cid =>
      (incrementCleanerStats (updateCleanerStatus db now cid .available) cid false, job)
    | none => (db, job)
  else if newStatus = .cancelled then
    let job := { job with
      cancelledAt := some now,
      cancelledById := some actor.id,
      cancellationReason := reason }
    match job.cleanerId with
    | some cid =>
      if oldStatus ∈ [BookingStatus.assigned, .inProgress, .paused] then
        (updateCleanerStatus db now cid .available, job)
      else (db, job)
    | none => (db, job)
  else (db, job)

/-- `JobStateMachine._get_default_reason` (lines 531-545). -/
def getDefaultReason (oldStatus newStatus : BookingStatus) : String :=
  match oldStatus, newStatus with
  | .pending, .pendingAssignment => "Payment completed"
  | .pendingAssignment, .assigned => "Cleaner assigned"
  | .assigned, .inProgress => "Job started by cleaner"
  | .inProgress, .paused => "Job paused by cleaner"
  | .paused, .inProgress => "Job resumed by cleaner"
  | .inProgress, .completed => "Job completed by cleaner"
  | _, _ => "Status changed to " ++ newStatus.value

/-- The `event_type_map` lookup in `_publish_transition_event` (lines 213-224). -/
def transitionEventType (oldStatus newStatus : BookingStatus) : Option EventType :=
  match newStatus with
  | .assigned => some .jobAssigned
  | .inProgress => some (if oldStatus = .assigned then .jobStarted else .jobResumed)
  | .paused => some .jobPaused
  | .completed => some .jobCompleted
  | .cancelled => some .jobCancelled
  | .failed => some .jobFailed
  | _ => none

/-- `JobStateMachine._publish_transition_event` (lines 203-262): append the
mapped event (no event for target statuses outside the map). -/
def publishTransitionEvent (db : DB) (job : Booking)
    (oldStatus newStatus : BookingStatus) : DB :=
  match transitionEventType oldStatus newStatus with
  | none => db
  | some etype =>
    { db with events := db.events ++
        [.jobEvent etype job.id job.bookingNumber newStatus.value oldStatus.value
          job.cleanerId job.customerId] }

/-- `JobStateMachine.transition` (lines 107-201): load the job, validate the
transition pair, check the optimistic-lock version, run pre-transition guards,
execute side effects, bump status/version, write the status-history and audit
rows, commit, and publish the transition event. -/
def transition (db : DB) (now : ℚ) (jobId : Nat) (newStatus : BookingStatus)
    (actor : User) (expectedVersion : Option Int) (reason : Option String)
    (metadata : Option String) : Except SMError (DB × Booking) :=
  match db.jobs.find? (fun j => j.id == jobId) with
  | none => .error (.notFound ("Job " ++ toString jobId ++ " not found"))
  | some job =>
    let currentStatus := job.status
    if ¬ canTransition currentStatus newStatus then
      .error (.invalidTransition (invalidTransitionMessage currentStatus.value newStatus.value))
    else if expectedVersion.elim false (fun v => job.version != v) then
      .error (.concurrentModification ("Job was modified. Expected version "
        ++ toString (expectedVersion.getD 0) ++ ", got " ++ toString job.version))
    else
      match validateTransition job newStatus actor now with
      | some e => .error e
      | none =>
        let previousState : StatusVersion := ⟨currentStatus.value, job.version⟩
        let (db, job) := executeTransitionActions db now job currentStatus newStatus actor reason
        let job := { job with status := newStatus, version := job.version + 1, updatedAt := now }
        let history : HistoryRow :=
          ⟨job.id, some currentStatus, newStatus, some actor.id,
            reason.getD (getDefaultReason currentStatus newStatus)⟩
        let newState : StatusVersion := ⟨newStatus.value, job.version⟩
        let audit : AuditRow :=
          ⟨"booking", job.id, "status_change_" ++ newStatus.value, actor.id,
            actor.role.value, previousState, newState, reason, metadata⟩
        let db := { db with
          jobs := updateFirst (fun j => j.id == jobId) (fun _ => job) db.jobs,
          histories := db.histories ++ [history],
          audits := db.audits ++ [audit] }
        .ok (publishTransitionEvent db job currentStatus newStatus, job)

/-- `JobStateMachine.complete_job` (lines 593-608): the convenience wrapper
for `IN_PROGRESS → COMPLETED`.  A falsy (absent or empty) idempotency key
yields `metadata = None`. -/
def smCompleteJob (db : DB) (now : ℚ) (jobId : Nat) (cleaner : User)
    (expectedVersion : Option Int) (idempotencyKey : Option String) :
    Except SMError (DB × Booking) :=
  let metadata := idempotencyKey.bind (fun k => if k = "" then none else some k)
  transition db now jobId .completed cleaner expectedVersion
    (some "Job completed by cleaner") metadata

/-- `JobStateMachine.start_job` (lines 549-564). -/
def smStartJob (db : DB) (now : ℚ) (jobId : Nat) (cleaner : User)
    (expectedVersion : Option Int) (idempotencyKey : Option String) :
    Except SMError (DB × Booking) :=
  let metadata := idempotencyKey.bind (fun k => if k = "" then none else some k)
  transition db now jobId .inProgress cleaner expectedVersion
    (some "Job started by cleaner") metadata

/-- `complete_job` (`app/api/cleaner_actions.py`, lines 219-265): the
cleaner-facing complete endpoint.  Role and assignment checks, then the
API-level idempotency short-circuit (an already-`COMPLETED` job is returned
unchanged), then optional notes update, then the state-machine transition;
`InvalidTransitionError` and `ConcurrentModificationError` are re-raised as
`BadRequestException`. -/
def completeJobAPI (db : DB) (now : ℚ) (jobId : Nat) (xIdempotencyKey : Option String)
    (currentUser : User) (expectedVersion : Option Int) (notes : Option String) :
    Except SMError (DB × Booking) :=
  if currentUser.role.value ≠ "cleaner" ∧ currentUser.role.value ≠ "admin" then
    .error (.forbidden "Only cleaners can perform this action")
  else
    match db.jobs.find? (fun j => j.id == jobId) with
    | none => .error (.notFound ("Job " ++ toString jobId ++ " not found"))
    | some job =>
      if job.cleanerId ≠ some currentUser.id ∧ currentUser.role.value ≠ "admin" then
        .error (.forbidden "You are not assigned to this job")
      else if job.status = .completed then
        .ok (db, job)
      else
        let db :=
          match notes with
          | some n =>
            let setNotes : Booking → Booking := fun j => { j with cleanerNotes := some n }
            { db with jobs := updateFirst (fun j => j.id == jobId) setNotes db.jobs }
          | none => db
        match smCompleteJob db now jobId currentUser expectedVersion xIdempotencyKey with
        | .ok r => .ok r
        | .error (.invalidTransition m) => .error (.badRequest m)
        | .error (.concurrentModification m) => .error (.badRequest m)
        | .error e => .error e

/-- Executable model of Python `str.lower` for one ASCII character. -/
def charLower (c : Char) : Char :=
  if 'A' ≤ c ∧ c ≤ 'Z' then Char.ofNat (c.toNat + 32) else c

/-- Executable model of Python `str.lower` (the city names involved are
ASCII). -/
def strLower (s : String) : String := ⟨s.data.map charLower⟩

/-- Whitespace test used by the `str.strip` model. -/
def isSpaceChar (c : Char) : Bool :=
  c = ' ' || c = '\t' || c = '\n' || c = '\r'

/-- Executable model of Python `str.strip`. -/
def strStrip (s : String) : String :=
  ⟨((s.data.dropWhile isSpaceChar).reverse.dropWhile isSpaceChar).reverse⟩

/-- `CITY_REGION_MAP` lookup in `get_region_from_city`
(`app/services/cleaner_assignment.py`, lines 23-42): lower-case and strip the
city, then look it up. -/
def getRegionFromCity (city : String) : Option Region :=
  if city = "" then none
  else
    match strStrip (strLower city) with
    | "dubai" => some .DXB
    | "abu dhabi" => some .AUH
    | "sharjah" => some .SHJ
    | "ajman" => some .AJM
    | "ras al khaimah" => some .RAK
    | "fujairah" => some .FUJ
    | "umm al quwain" => some .UAQ
    | "dxb" => some .DXB
    | "abudhabi" => some .AUH
    | _ => none

/-- `has_time_conflict` (`app/services/cleaner_assignment.py`, lines 84-121).
`durationHours` is in hours (converted to minutes); a falsy
`exclude_booking_id` (absent or `0`) applies no exclusion, matching the
Python truthiness test. -/
def hasTimeConflict (jobs : List Booking) (cleanerId : Nat)
    (scheduledDate durationHours : ℚ) (excludeBookingId : Option Nat) : Bool :=
  let bookingStart := scheduledDate
  let bookingEnd := scheduledDate + durationHours * 60
  let potential := jobs.filter (fun j =>
    j.assignedEmployeeId == some cleanerId
    && !(j.status == .cancelled) && !(j.status == .noShow)
    && decide (j.scheduledDate < bookingEnd)
    && (match excludeBookingId with
        | some e => if e ≠ 0 then j.id != e else true
        | none => true))
  potential.any (fun j => decide (j.scheduledEndTime.getD (j.scheduledDate + 150) > bookingStart))

/-- `ADJACENT_REGIONS` (`app/services/allocation_engine.py`, lines 85-93). -/
def adjacentRegions : Region → List Region
  | .DXB => [.SHJ, .AJM]
  | .SHJ => [.DXB, .AJM, .UAQ]
  | .AJM => [.DXB, .SHJ, .UAQ]
  | .UAQ => [.SHJ, .AJM, .RAK]
  | .RAK => [.UAQ, .FUJ]
  | .FUJ => [.RAK]
  | .AUH => []

/-- `REGION_COORDINATES` (`app/services/allocation_engine.py`, lines 96-104). -/
def regionCoordinates : Region → ℚ × ℚ
  | .DXB => (252048/10000, 552708/10000)
  | .AUH => (244539/10000, 543773/10000)
  | .SHJ => (253462/10000, 554211/10000)
  | .AJM => (254052/10000, 555136/10000)
  | .RAK => (257895/10000, 559432/10000)
  | .FUJ => (251288/10000, 563264/10000)
  | .UAQ => (255647/10000, 555552/10000)

/-- `AllocationConfig` (`app/services/allocation_engine.py`, lines 39-57). -/
structure AllocationConfig where
  queueWeight : ℚ
  distanceWeight : ℚ
  ratingWeight : ℚ
  assignmentTimeoutSeconds : ℚ
  maxCandidatesToTry : Nat
  queueTtlSeconds : Nat
  statusTtlSeconds : Nat
  expandToAdjacentRegions : Bool
  fallbackToAnyRegion : Bool
deriving Repr, DecidableEq

/-- The dataclass defaults of `AllocationConfig`. -/
def defaultAllocationConfig : AllocationConfig :=
  ⟨40/100, 30/100, 30/100, 3, 5, 3600, 300, true, true⟩

/-- `CleanerCandidate` (`app/services/allocation_engine.py`, lines 60-69). -/
structure CleanerCandidate where
  employee : Employee
  queueScore : ℚ
  distanceScore : ℚ
  ratingScore : ℚ
  totalScore : ℚ
  distanceKm : Option ℚ
  queuePosition : Nat
deriving Repr, DecidableEq

/-- `AllocationResult` (`app/services/allocation_engine.py`, lines 72-81).
The wall-clock `allocation_time_ms` field is not modelled. -/
structure AllocationResult where
  success : Bool
  assignedEmployee : Option Employee
  candidatesEvaluated : Nat
  fallbackUsed : Bool
  regionExpanded : Bool
  failureReason : Option String
deriving Repr, DecidableEq

/-- `AllocationEngine._calculate_queue_positions` (lines 427-472): rank the
region's active employees by their most recent completed job's
`actual_end_time`, ascending, employees with no completed job first
(`datetime.min`), 1-indexed.  The cache write is outside the modelled step. -/
def calculateQueuePositions (db : DB) (regionCode : Region) : List (Nat × Nat) :=
  let cleaners := db.employees.filter
    (fun e => e.accountStatus == .active && e.regionCode == regionCode)
  let lastEnd : Employee → Option ℚ := fun c =>
    ((db.jobs.filter (fun j =>
        j.assignedEmployeeId == some c.id && j.status == .completed
          && j.actualEndTime.isSome)).filterMap Booking.actualEndTime).max?
  let cleanerTimes := cleaners.map (fun c => (c.id, lastEnd c))
  let timeLE : Nat × Option ℚ → Nat × Option ℚ → Bool := fun a b =>
    match a.2, b.2 with
    | none, _ => true
    | some _, none => false
    | some x, some y => decide (x ≤ y)
  let sorted := cleanerTimes.mergeSort timeLE
  sorted.enum.map (fun p => (p.2.1, p.1 + 1))

/-- `AllocationEngine._get_queue_positions` (lines 408-425): the cached
per-region `{cleaner_id → position}` map, recomputed on a cache miss. -/
def getQueuePositions (db : DB) (regionCode : Region) : List (Nat × Nat) :=
  match db.queueCache.find? (fun p => p.1 == regionCode) with
  | some p => p.2
  | none => calculateQueuePositions db regionCode

/-- `AllocationEngine._calculate_candidate_scores` (lines 337-378).  `hav`
is the Haversine great-circle distance in kilometres
(`_haversine_distance`, a transcendental function kept abstract). -/
def calculateCandidateScores (cfg : AllocationConfig) (hav : ℚ × ℚ → ℚ × ℚ → ℚ)
    (cleaner : Employee) (queuePositions : List (Nat × Nat))
    (bookingCoords : Option (ℚ × ℚ)) : CleanerCandidate :=
  let queuePos := ((queuePositions.find? (fun p => p.1 == cleaner.id)).map Prod.snd).getD 999
  let maxPos : Nat := if queuePositions.isEmpty then 1
    else ((queuePositions.map Prod.snd).max?).getD 0
  let queueScore : ℚ := if maxPos > 0 then 1 - (queuePos : ℚ) / ((maxPos : ℚ) + 1) else 1/2
  let distPair : Option ℚ × ℚ :=
    match bookingCoords with
    | none => (none, 1/2)
    | some bc =>
      let cc := regionCoordinates cleaner.regionCode
      let km := hav bc cc
      (some km, max 0 (1 - km/50))
  let rating := cleaner.rating.getD 4
  let ratingScore := rating / 5
  let totalScore := cfg.queueWeight * queueScore + cfg.distanceWeight * distPair.2
    + cfg.ratingWeight * ratingScore
  ⟨cleaner, queueScore, distPair.2, ratingScore, totalScore, distPair.1, queuePos⟩

/-- `AllocationEngine._get_scored_candidates` (lines 261-300). -/
def getScoredCandidates (cfg : AllocationConfig) (hav : ℚ × ℚ → ℚ × ℚ → ℚ) (db : DB)
    (regionCode : Region) (scheduledDate durationHours : ℚ)
    (bookingCoords : Option (ℚ × ℚ)) (excludeBookingId : Option Nat) :
    List CleanerCandidate :=
  let cleaners := db.employees.filter
    (fun e => e.accountStatus == .active && e.regionCode == regionCode)
  let queuePositions := getQueuePositions db regionCode
  (cleaners.filter (fun c =>
      !(hasTimeConflict db.jobs c.id scheduledDate durationHours excludeBookingId))).map
    (fun c => calculateCandidateScores cfg hav c queuePositions bookingCoords)

/-- `AllocationEngine._get_all_available_candidates` (lines 302-335): the
system-wide fallback pool; queue positions are taken from each cleaner's own
region. -/
def getAllAvailableCandidates (cfg : AllocationConfig) (hav : ℚ × ℚ → ℚ × ℚ → ℚ)
    (db : DB) (scheduledDate durationHours : ℚ) (bookingCoords : Option (ℚ × ℚ))
    (excludeBookingId : Option Nat) : List CleanerCandidate :=
  ((db.employees.filter (fun e => e.accountStatus == .active)).filter (fun c =>
      !(hasTimeConflict db.jobs c.id scheduledDate durationHours excludeBookingId))).map
    (fun c => calculateCandidateScores cfg hav c (getQueuePositions db c.regionCode)
      bookingCoords)

/-- `AllocationEngine._get_booking_region` (lines 245-249). -/
def getBookingRegion (booking : Booking) : Option Region :=
  match booking.addressCity with
  | none => none
  | some city => getRegionFromCity city

/-- `AllocationEngine._get_booking_coordinates` (lines 251-259): the region
centre of the booking's city. -/
def getBookingCoordinates (booking : Booking) : Option (ℚ × ℚ) :=
  (getBookingRegion booking).map regionCoordinates

/-- `AllocationEngine._attempt_assignment` (lines 474-513): re-check the time
conflict (with the hard-coded 2.5-hour duration), then commit
`assigned_employee_id`, `assigned_at` and `sla_deadline` on the booking row. -/
def attemptAssignment (db : DB) (booking : Booking) (cleaner : Employee)
    (now : ℚ) : Option DB :=
  if hasTimeConflict db.jobs cleaner.id booking.scheduledDate (5/2) (some booking.id) then
    none
  else
    let assign : Booking → Booking := fun j =>
      { j with
        assignedEmployeeId := some cleaner.id,
        assignedAt := some now,
        slaDeadline := some (booking.scheduledDate + 10) }
    some { db with jobs := updateFirst (fun j => j.id == booking.id) assign db.jobs }

/-- The per-candidate loop of `allocate_cleaner` (lines 204-217): try each
candidate in order, counting the attempts, stopping at the first successful
commit. -/
def tryCandidates (db : DB) (now : ℚ) (booking : Booking) :
    List CleanerCandidate → Option (DB × Employee) × Nat
  | [] => (none, 0)
  | c :: rest =>
    match attemptAssignment db booking c.employee now with
    | some db' => (some (db', c.employee), 1)
    | none =>
      let (r, n) := tryCandidates db now booking rest
      (r, n + 1)

/-- `AllocationEngine.allocate_cleaner` (lines 121-243): resolve the region,
build and score the candidate pool (with adjacent-region expansion and
system-wide fallback), sort by total score descending, and try the top
`max_candidates_to_try` candidates.  Cache-held allocation metrics and the
wall-clock timeout are outside the modelled state. -/
def allocateCleaner (cfg : AllocationConfig) (hav : ℚ × ℚ → ℚ × ℚ → ℚ) (db : DB)
    (booking : Booking) (durationHours : ℚ) (now : ℚ) : AllocationResult × DB :=
  match getBookingRegion booking with
  | none => (⟨false, none, 0, false, false, some "Could not determine booking region"⟩, db)
  | some regionCode =>
    let bookingCoords := getBookingCoordinates booking
    let primary := getScoredCandidates cfg hav db regionCode booking.scheduledDate
      durationHours bookingCoords (some booking.id)
    let expanded :=
      if primary.isEmpty ∧ cfg.expandToAdjacentRegions then
        let adj := (adjacentRegions regionCode).flatMap (fun r =>
          getScoredCandidates cfg hav db r booking.scheduledDate durationHours
            bookingCoords (some booking.id))
        (adj, !adj.isEmpty)
      else (primary, false)
    let pooled :=
      if expanded.1.isEmpty ∧ cfg.fallbackToAnyRegion then
        let all := getAllAvailableCandidates cfg hav db booking.scheduledDate
          durationHours bookingCoords (some booking.id)
        (all, !all.isEmpty)
      else (expanded.1, false)
    if pooled.1.isEmpty then
      (⟨false, none, 0, false, false, some "No available cleaners found"⟩, db)
    else
      let sorted := pooled.1.mergeSort (fun a b => decide (b.totalScore ≤ a.totalScore))
      match tryCandidates db now booking (sorted.take cfg.maxCandidatesToTry) with
      | (some (db', assigned), tried) =>
        let db' := { db' with queueCache := db'.queueCache.filter (fun p => p.1 != regionCode) }
        (⟨true, some assigned, tried, pooled.2, expanded.2, none⟩, db')
      | (none, tried) =>
        (⟨false, none, tried, pooled.2, expanded.2,
          some "All candidates rejected or timed out"⟩, db)

/-- `SLAMonitor.PAYMENT_TIMEOUT_MINUTES` (`app/services/sla_monitor.py`). -/
def PAYMENT_TIMEOUT_MINUTES : ℚ := 15

/-- The predicate selecting the stale bookings of
`SLAMonitor.cancel_unpaid_bookings` (lines 194-198). -/
def isStaleUnpaid (now : ℚ) (j : Booking) : Bool :=
  j.status == .pending && j.paymentStatus == .pending
    && decide (j.createdAt < now - PAYMENT_TIMEOUT_MINUTES)

/-- `SLAMonitor.cancel_unpaid_bookings` (lines 180-231): directly set each
stale `PENDING/PENDING` booking to `CANCELLED` (without going through the
state machine) and append a status-history row with a `None` system actor.
Returns the updated database and the cancelled count. -/
def cancelUnpaidBookings (db : DB) (now : ℚ) : DB × Nat :=
  let stale := db.jobs.filter (isStaleUnpaid now)
  let cancel : Booking → Booking := fun j =>
    { j with
      status := .cancelled,
      cancelledAt := some now,
      cancellationReason := some "Payment timeout - booking auto-cancelled after 15 minutes" }
  let newRows := stale.map (fun j =>
    HistoryRow.mk j.id (some .pending) .cancelled none
      "Auto-cancelled: Payment not received within 15 minutes")
  let db := { db with
    jobs := db.jobs.map (fun j => if isStaleUnpaid now j then cancel j else j),
    histories := db.histories ++ newRows }
  (db, stale.length)

/-- The allowed-transition table of §4.1 of the specification, transcribed
from the spec for comparison with the code's `VALID_TRANSITIONS`. -/
def specAllowedTransitions : List (BookingStatus × BookingStatus) :=
  [(.pending, .pendingAssignment), (.pending, .cancelled),
   (.pendingAssignment, .assigned), (.pendingAssignment, .cancelled),
   (.confirmed, .assigned), (.confirmed, .cancelled),
   (.assigned, .inProgress), (.assigned, .cancelled),
   (.inProgress, .paused), (.inProgress, .completed),
   (.inProgress, .failed), (.inProgress, .cancelled),
   (.paused, .inProgress), (.paused, .cancelled),
   (.cancelled, .refunded),
   (.failed, .pendingAssignment)]

/-- A `JOB_COMPLETED` event. -/
def isJobCompletedEvent : Event → Bool
  | .jobEvent .jobCompleted _ _ _ _ _ _ => true
  | _ => false

/-! ## Concrete test fixtures used by witnesses and counterexamples -/

/-- Fixture: a paid job in `IN_PROGRESS`, assigned to cleaner 20. -/
def fxJobInProgress : Booking :=
  { id := 1, bookingNumber := "BH250101ABCDEF", version := 5, customerId := 10,
    cleanerId := some 20, assignedEmployeeId := none, addressCity := some "Dubai",
    scheduledDate := 1000, scheduledEndTime := none, slaDeadline := none,
    assignedAt := some 900, actualStartTime := some 990, pausedAt := none,
    resumedAt := none, actualEndTime := none, failedAt := none, failureReason := none,
    status := .inProgress, paymentStatus := .paid, totalPrice := some 200,
    cleanerNotes := none, cancelledAt := none, cancelledById := none,
    cancellationReason := none, createdAt := 0, updatedAt := 0 }

/-- Fixture: cleaner 20's profile, currently busy with 3 completed jobs. -/
def fxProfile : CleanerProfile := ⟨20, .busy, 1, none, some 3, some 0, 0⟩

/-- Fixture: the cleaner user behind employee 20. -/
def fxCleaner : User := ⟨20, .cleaner, "Worker One"⟩

/-- Fixture: an admin user. -/
def fxAdmin : User := ⟨99, .admin, "Admin"⟩

/-- Fixture: customer 10's wallet with balance 100. -/
def fxWallet : Wallet := ⟨10, 100, 0, 0, 0, 0⟩

/-- Fixture: database holding `fxJobInProgress` and its cleaner. -/
def fxDB : DB :=
  { jobs := [fxJobInProgress], profiles := [fxProfile], users := [fxCleaner],
    employees := [], wallets := [fxWallet], walletTxns := [],
    referrals := [], histories := [], audits := [], events := [],
    queueCache := [], walletAvailable := true }

/-- Fixture: the job after a successful complete call at time 2000. -/
def fxJobCompleted : Booking :=
  { fxJobInProgress with
    status := .completed, version := 6,
    actualEndTime := some 2000, updatedAt := 2000 }

/-- Fixture: the audit row of a prior successful `IN_PROGRESS → COMPLETED`
transition on job 1 carrying idempotency key `"k1"`. -/
def fxAuditCompleted : AuditRow :=
  ⟨"booking", 1, "status_change_completed", 20, "cleaner",
    ⟨"in_progress", 5⟩, ⟨"completed", 6⟩, some "Job completed by cleaner", some "k1"⟩

/-- Fixture: database state after a successful complete with key `"k1"` on
job 1: the job is `COMPLETED` and the audit trail records the key. -/
def fxDBReplay : DB :=
  { fxDB with
    jobs := [fxJobCompleted],
    histories := [⟨1, some .inProgress, .completed, some 20, "Job completed by cleaner"⟩],
    audits := [fxAuditCompleted] }

/-- Fixture: `fxJobInProgress` paused at time 1000. -/
def fxJobPaused : Booking :=
  { fxJobInProgress with
    status := .paused, pausedAt := some 1000 }

/-- Fixture: database holding the paused job. -/
def fxDBPaused : DB := { fxDB with jobs := [fxJobPaused] }

/-- Fixture: a paid booking in `PENDING_ASSIGNMENT` in Dubai awaiting
allocation. -/
def fxBookingUnassigned : Booking :=
  { fxJobInProgress with
    cleanerId := none, status := .pendingAssignment,
    actualStartTime := none, assignedAt := none }

/-- Fixture: an unpaid booking in `PENDING/PENDING` created at time 0. -/
def fxJobUnpaid : Booking :=
  { fxJobInProgress with
    id := 2, cleanerId := none, status := .pending,
    paymentStatus := .pending, version := 3, assignedAt := none,
    actualStartTime := none }

/-- Fixture: database holding the unpaid pending booking. -/
def fxDBUnpaid : DB := { fxDB with jobs := [fxJobUnpaid] }

/-- Fixture: active Dubai employee, rating 4.9, queue position 1. -/
def fxEmpDXB1 : Employee :=
  ⟨101, "CLN-DXB-2501-00001", "W1", .DXB, .active, .available, some (49/10)⟩

/-- Fixture: active Dubai employee, rating 4.5, queue position 2. -/
def fxEmpDXB2 : Employee :=
  ⟨102, "CLN-DXB-2501-00002", "W2", .DXB, .active, .available, some (45/10)⟩

/-- Fixture: active Sharjah employee, rating 5.0. -/
def fxEmpSHJ : Employee :=
  ⟨103, "CLN-SHJ-2501-00003", "W3", .SHJ, .active, .available, some 5⟩

/-- Fixture: database for allocation, with two Dubai workers and one Sharjah
worker, Dubai queue positions cached. -/
def fxAllocDB : DB :=
  { fxDB with
    jobs := [fxBookingUnassigned],
    employees := [fxEmpDXB1, fxEmpDXB2, fxEmpSHJ],
    queueCache := [(.DXB, [(101, 1), (102, 2)])] }

/-- Fixture: a trivially zero distance oracle standing in for the Haversine
helper in witnesses. -/
def fxHavZero : ℚ × ℚ → ℚ × ℚ → ℚ := fun _ _ => 0

/-- Fixture: `fxJobUnpaid` after the `PENDING → PENDING_ASSIGNMENT`
transition at time 100. -/
def fxJobPA : Booking :=
  { fxJobUnpaid with
    status := .pendingAssignment, version := 4, updatedAt := 100 }

/-- Fixture: expected database after transitioning `fxJobUnpaid` to
`PENDING_ASSIGNMENT` at time 100 by `fxAdmin`. -/
def fxDBPA : DB :=
  { fxDBUnpaid with
    jobs := [fxJobPA],
    histories := [⟨2, some .pending, .pendingAssignment, some 99, "Payment completed"⟩],
    audits := [⟨"booking", 2, "status_change_pending_assignment", 99, "admin",
      ⟨"pending", 3⟩, ⟨"pending_assignment", 4⟩, none, none⟩] }

/-- Fixture: the unassigned booking relocated to Sharjah. -/
def fxBookingSHJ : Booking :=
  { fxBookingUnassigned with
    addressCity := some "Sharjah" }

/-- Fixture: a Sharjah booking with only Dubai workers active (Dubai is
adjacent to Sharjah). -/
def fxAllocDBSHJ : DB :=
  { fxAllocDB with
    jobs := [fxBookingSHJ],
    employees := [fxEmpDXB1, fxEmpDXB2] }

/-- Fixture: a Sharjah booking with no workers anywhere. -/
def fxAllocDBEmpty : DB :=
  { fxAllocDB with
    jobs := [fxBookingSHJ],
    employees := [] }

/-- A rational that is an exact two-decimal-place amount (the invariant the
spec asserts for all monetary arithmetic). -/
def isTwoPlaces (q : ℚ) : Prop := ∃ n : ℤ, q = n / 100

/-- The arguments of one `transition` call (used to state version
monotonicity over a sequence of calls). -/
structure TransitionCall where
  now : ℚ
  newStatus : BookingStatus
  actor : User
  expectedVersion : Option Int
  reason : Option String
  metadata : Option String
deriving Repr

/-- Run a sequence of `transition` calls against one job id, counting the
successful ones; a failed call leaves the database unchanged (the raised
exception aborts that request only). -/
def runTransitions (jobId : Nat) : DB → List TransitionCall → DB × Nat
  | db, [] => (db, 0)
  | db, c :: cs =>
    match transition db c.now jobId c.newStatus c.actor c.expectedVersion
        c.reason c.metadata with
    | .ok r =>
      let rec' := runTransitions jobId r.1 cs
      (rec'.1, rec'.2 + 1)
    | .error _ => runTransitions jobId db cs

/-! ## Theorems -/

/-- Mutating the row found by `find? p` keeps it the row found by `find? p`,
provided the mutation preserves the key predicate. -/
theorem updateFirst_find? {α : Type} {p : α → Bool} {f : α → α} {l : List α} {x : α}
    (h : l.find? p = some x) (hf : p (f x) = true) :
    (updateFirst p f l).find? p = some (f x) := by
  induction l with
  | nil => simp [List.find?] at h
  | cons a t ih =>
    by_cases hpa : p a = true
    · rw [List.find?_cons_of_pos _ hpa] at h
      injection h with h
      subst h
      simp [updateFirst, hpa, List.find?_cons_of_pos _ hf]
    · rw [List.find?_cons_of_neg _ hpa] at h
      have hpa' : p a = false := by simpa using hpa
      simp [updateFirst, hpa', List.find?_cons_of_neg _ hpa, ih h]

/-- C5: for every (from, to) pair of statuses, `can_transition` accepts it
exactly when the pair is in the §4.1 allowed-transition table; any other pair
makes `transition` raise `InvalidTransition` (never a silent no-op), and the
error message contains both status names. -/
theorem transition_exhaustiveness :
    (∀ f t : BookingStatus, canTransition f t = true ↔ (f, t) ∈ specAllowedTransitions) ∧
    (∀ f t : BookingStatus,
      f.value.toList <:+: (invalidTransitionMessage f.value t.value).toList ∧
      t.value.toList <:+: (invalidTransitionMessage f.value t.value).toList) ∧
    (∀ (db : DB) (now : ℚ) (jobId : Nat) (t : BookingStatus) (actor : User)
       (ev : Option Int) (reason metadata : Option String) (job : Booking),
      db.jobs.find? (fun j => j.id == jobId) = some job →
      canTransition job.status t = false →
      transition db now jobId t actor ev reason metadata =
        .error (.invalidTransition (invalidTransitionMessage job.status.value t.value))) := by
  refine ⟨by decide, ?_, ?_⟩
  · intro f t
    constructor
    · exact ⟨"Invalid transition from ".toList, (" to " ++ t.value).toList, by
        simp [invalidTransitionMessage]⟩
    · exact ⟨("Invalid transition from " ++ f.value ++ " to ").toList, [], by
        simp [invalidTransitionMessage]⟩
  · intro db now jobId t actor ev reason metadata job hfind hcan
    simp [transition, hfind, hcan]

/-- Witness for C5: on the concrete database, an `IN_PROGRESS → REFUNDED`
request is outside the table and raises `InvalidTransition` naming both
statuses. -/
theorem transition_exhaustiveness_witness :
    fxDB.jobs.find? (fun j => j.id == 1) = some fxJobInProgress ∧
    canTransition BookingStatus.inProgress .refunded = false ∧
    transition fxDB 0 1 .refunded fxCleaner none none none =
      .error (.invalidTransition "Invalid transition from in_progress to refunded") := by
  refine ⟨rfl, by decide, ?_⟩
  have h := transition_exhaustiveness.2.2 fxDB 0 1 .refunded fxCleaner none none none
    fxJobInProgress rfl (by decide)
  simpa [invalidTransitionMessage, fxJobInProgress, BookingStatus.value] using h

/-- The side-effect phase never touches the job's `version` column. -/
theorem executeTransitionActions_version (db : DB) (now : ℚ) (job : Booking)
    (oldStatus newStatus : BookingStatus) (actor : User) (reason : Option String) :
    (executeTransitionActions db now job oldStatus newStatus actor reason).2.version
      = job.version := by
  unfold executeTransitionActions
  cases hc : job.cleanerId <;> cases newStatus <;> cases oldStatus <;> simp [hc]

/-- The side-effect phase never touches the job's `id` column. -/
theorem executeTransitionActions_id (db : DB) (now : ℚ) (job : Booking)
    (oldStatus newStatus : BookingStatus) (actor : User) (reason : Option String) :
    (executeTransitionActions db now job oldStatus newStatus actor reason).2.id
      = job.id := by
  unfold executeTransitionActions
  cases hc : job.cleanerId <;> cases newStatus <;> cases oldStatus <;> simp [hc]

/-- Publishing the transition event does not change the job table. -/
theorem publishTransitionEvent_jobs (db : DB) (job : Booking)
    (oldStatus newStatus : BookingStatus) :
    (publishTransitionEvent db job oldStatus newStatus).jobs = db.jobs := by
  unfold publishTransitionEvent
  split <;> rfl

/-- Cleaner-status updates do not touch the job table. -/
theorem updateCleanerStatus_jobs (db : DB) (now : ℚ) (cid : Nat)
    (st : CleanerStatus) (cd : ℚ) :
    (updateCleanerStatus db now cid st cd).jobs = db.jobs := by
  unfold updateCleanerStatus
  split
  · rfl
  · simp only []
    split_ifs <;> rfl

/-- Stats increments do not touch the job table. -/
theorem incrementCleanerStats_jobs (db : DB) (cid : Nat) (completed : Bool) :
    (incrementCleanerStats db cid completed).jobs = db.jobs := by
  unfold incrementCleanerStats
  rfl

/-- Wallet creation does not touch the job table. -/
theorem getOrCreateWallet_jobs (db : DB) (userId : Nat) :
    (getOrCreateWallet db userId).1.jobs = db.jobs := by
  unfold getOrCreateWallet
  repeat' split <;> rfl

/-- Wallet credits do not touch the job table. -/
theorem createCreditTransaction_jobs (db : DB) (u : Nat) (ty : TransactionType)
    (amount : ℚ) (d : String) :
    (createCreditTransaction db u ty amount d).jobs = db.jobs := by
  unfold createCreditTransaction
  rfl

/-- Referral rewards do not touch the job table. -/
theorem addReferralReward_jobs (db : DB) (userId : Nat) (amount : ℚ) (d : String) :
    (addReferralReward db userId amount d).jobs = db.jobs := by
  unfold addReferralReward
  rw [createCreditTransaction_jobs, getOrCreateWallet_jobs]

/-- Referral completion does not touch the job table. -/
theorem completePendingReferral_jobs (db : DB) (now : ℚ) (customerId bookingId : Nat) :
    (completePendingReferral db now customerId bookingId).jobs = db.jobs := by
  unfold completePendingReferral
  split
  · rfl
  · simp only []
    split_ifs <;> first
      | rfl
      | rw [addReferralReward_jobs]

/-- Completion rewards do not touch the job table. -/
theorem processCompletionRewards_jobs (db : DB) (now : ℚ) (job : Booking) :
    (processCompletionRewards db now job).jobs = db.jobs := by
  unfold processCompletionRewards
  rw [completePendingReferral_jobs]
  split
  · simp only []
    split_ifs <;>
      simp only [createCreditTransaction_jobs, getOrCreateWallet_jobs]
  · rfl

/-- The side-effect phase does not touch the job table (the status/version
write happens afterwards, in `transition` itself). -/
theorem executeTransitionActions_jobs (db : DB) (now : ℚ) (job : Booking)
    (oldStatus newStatus : BookingStatus) (actor : User) (reason : Option String) :
    (executeTransitionActions db now job oldStatus newStatus actor reason).1.jobs
      = db.jobs := by
  unfold executeTransitionActions
  repeat' first
    | rfl
    | rw [updateCleanerStatus_jobs]
    | rw [incrementCleanerStats_jobs]
    | rw [processCompletionRewards_jobs]
    | split
    | simp only []

/-- Characterisation of a successful `transition`: the returned job is the
stored row with `version` bumped by exactly 1 (and the same id), and the job
table is the old table with that row replaced. -/
theorem transition_ok_spec (db : DB) (now : ℚ) (jobId : Nat) (t : BookingStatus)
    (actor : User) (ev : Option Int) (reason metadata : Option String)
    (job : Booking) (db' : DB) (job' : Booking)
    (hfind : db.jobs.find? (fun j => j.id == jobId) = some job)
    (heq : transition db now jobId t actor ev reason metadata = .ok (db', job')) :
    job'.version = job.version + 1 ∧ job'.id = job.id ∧
    db'.jobs = updateFirst (fun j => j.id == jobId) (fun _ => job') db.jobs := by
  unfold transition at heq
  rw [hfind] at heq
  simp only [] at heq
  split at heq
  · exact absurd heq (by simp)
  · split at heq
    · exact absurd heq (by simp)
    · split at heq
      · exact absurd heq (by simp)
      · simp only [Except.ok.injEq, Prod.mk.injEq] at heq
        obtain ⟨hdb', hjob'⟩ := heq
        subst hdb' hjob'
        refine ⟨?_, ?_, ?_⟩
        · simp [executeTransitionActions_version]
        · simp [executeTransitionActions_id]
        · rw [publishTransitionEvent_jobs]
          simp [executeTransitionActions_jobs]

/-- Counterexample for C2: the code validates the (from, to) pair before the
optimistic-lock check, so a stale `expected_version` (99 against stored 6) on
a terminal-status job raises `InvalidTransition`, not `ConcurrentModification`
as the claim's step order would require. -/
theorem stale_version_order_counterexample :
    fxJobCompleted.version = 6 ∧
    transition fxDBReplay 2100 1 .completed fxCleaner (some 99) none none =
      .error (.invalidTransition "Invalid transition from completed to completed") := by
  exact ⟨rfl, rfl⟩

/-- C2 (amended): if `expected_version` differs from the stored version and
the (from, to) pair is valid, `transition` fails with
`ConcurrentModification`; every successful transition increments `version` by
exactly 1, and over any sequence of transition calls on a job the final
version is the initial version plus the number of successful calls. -/
theorem version_check_and_monotonicity :
    (∀ (db : DB) (now : ℚ) (jobId : Nat) (t : BookingStatus) (actor : User)
       (v : Int) (reason metadata : Option String) (job : Booking),
      db.jobs.find? (fun j => j.id == jobId) = some job →
      canTransition job.status t = true →
      job.version ≠ v →
      transition db now jobId t actor (some v) reason metadata =
        .error (.concurrentModification ("Job was modified. Expected version "
          ++ toString v ++ ", got " ++ toString job.version))) ∧
    (∀ (db : DB) (now : ℚ) (jobId : Nat) (t : BookingStatus) (actor : User)
       (ev : Option Int) (reason metadata : Option String) (job : Booking)
       (db' : DB) (job' : Booking),
      db.jobs.find? (fun j => j.id == jobId) = some job →
      transition db now jobId t actor ev reason metadata = .ok (db', job') →
      job'.version = job.version + 1) ∧
    (∀ (jobId : Nat) (calls : List TransitionCall) (db : DB) (job : Booking),
      db.jobs.find? (fun j => j.id == jobId) = some job →
      ∃ jobf,
        (runTransitions jobId db calls).1.jobs.find? (fun j => j.id == jobId) = some jobf
          ∧ jobf.version = job.version + (runTransitions jobId db calls).2) := by
  refine ⟨?_, ?_, ?_⟩
  · intro db now jobId t actor v reason metadata job hfind hcan hv
    simp [transition, hfind, hcan, bne_iff_ne, hv]
  · intro db now jobId t actor ev reason metadata job db' job' hfind heq
    exact (transition_ok_spec db now jobId t actor ev reason metadata job db' job'
      hfind heq).1
  · intro jobId calls
    induction calls with
    | nil =>
      intro db job hfind
      exact ⟨job, by simpa [runTransitions] using hfind, by simp [runTransitions]⟩
    | cons c cs ih =>
      intro db job hfind
      cases htr : transition db c.now jobId c.newStatus c.actor c.expectedVersion
          c.reason c.metadata with
      | error e =>
        have h := ih db job hfind
        obtain ⟨jobf, hf, hv⟩ := h
        exact ⟨jobf, by simpa [runTransitions, htr] using hf,
          by simpa [runTransitions, htr] using hv⟩
      | ok r =>
        obtain ⟨db1, job1⟩ := r
        have spec := transition_ok_spec db c.now jobId c.newStatus c.actor
          c.expectedVersion c.reason c.metadata job db1 job1 hfind htr
        have hp : (fun j => j.id == jobId) job1 = true := by
          have hyes := List.find?_some hfind
          simp only [spec.2.1]
          simpa using hyes
        have hfind1 : db1.jobs.find? (fun j => j.id == jobId) = some job1 := by
          rw [spec.2.2]
          simpa using updateFirst_find? hfind hp
        obtain ⟨jobf, hf, hv⟩ := ih db1 job1 hfind1
        refine ⟨jobf, by simpa [runTransitions, htr] using hf, ?_⟩
        have : jobf.version = job1.version + (runTransitions jobId db1 cs).2 := hv
        simp [runTransitions, htr, this, spec.1]
        omega

/-- Witness for C2: on the concrete pending booking, a stale expected version
(99 against stored 3) with the valid `PENDING → PENDING_ASSIGNMENT` pair
raises `ConcurrentModification`, and the successful call bumps the version
from 3 to 4. -/
theorem version_check_and_monotonicity_witness :
    fxDBUnpaid.jobs.find? (fun j => j.id == 2) = some fxJobUnpaid ∧
    canTransition fxJobUnpaid.status .pendingAssignment = true ∧
    fxJobUnpaid.version ≠ 99 ∧
    transition fxDBUnpaid 100 2 .pendingAssignment fxAdmin (some 99) none none =
      .error (.concurrentModification "Job was modified. Expected version 99, got 3") ∧
    transition fxDBUnpaid 100 2 .pendingAssignment fxAdmin none none none =
      .ok (fxDBPA, fxJobPA) ∧
    fxJobPA.version = fxJobUnpaid.version + 1 := by
  refine ⟨rfl, by decide, by decide, ?_, rfl, ?_⟩
  · have h := version_check_and_monotonicity.1 fxDBUnpaid 100 2 .pendingAssignment
      fxAdmin 99 none none fxJobUnpaid rfl (by decide) (by decide)
    simpa using h
  · exact version_check_and_monotonicity.2.1 fxDBUnpaid 100 2 .pendingAssignment
      fxAdmin none none none fxJobUnpaid fxDBPA fxJobPA rfl rfl

/-- C9: a `PAUSED → IN_PROGRESS` transition fails with `BadRequest` iff the
pause exceeded 30 minutes; a resume within 30 minutes succeeds, sets
`resumed_at = now` and leaves `actual_start_time` unchanged. -/
theorem paused_resume_guard :
    ∀ (db : DB) (now : ℚ) (jobId : Nat) (actor : User)
      (reason metadata : Option String) (job : Booking) (p : ℚ),
      db.jobs.find? (fun j => j.id == jobId) = some job →
      job.status = .paused →
      job.pausedAt = some p →
      ¬(actor.role.value = "cleaner" ∧ job.cleanerId ≠ some actor.id) →
      ((now - p > 30 →
        transition db now jobId .inProgress actor none reason metadata =
          .error (.badRequest "Job was paused for more than 30 minutes")) ∧
       (now - p ≤ 30 →
        ∃ db' job',
          transition db now jobId .inProgress actor none reason metadata =
            .ok (db', job') ∧
          job'.resumedAt = some now ∧
          job'.actualStartTime = job.actualStartTime ∧
          job'.status = .inProgress)) := by
  intro db now jobId actor reason metadata job p hfind hstatus hpaused hguard
  have hcan : canTransition job.status .inProgress = true := by
    rw [hstatus]; decide
  have hexec : executeTransitionActions db now job job.status .inProgress actor reason
      = (db, { job with resumedAt := some now }) := by
    unfold executeTransitionActions
    rw [hstatus]
    simp
  constructor
  · intro h30
    have hval : validateTransition job .inProgress actor now =
        some (.badRequest "Job was paused for more than 30 minutes") := by
      unfold validateTransition
      rw [if_neg (fun hc => hguard ⟨hc.2.1, hc.2.2⟩), if_pos ⟨hstatus, rfl⟩, hpaused]
      simp only [MAX_PAUSE_DURATION_MINUTES]
      rw [if_pos h30]
    simp [transition, hfind, hcan, hval]
  · intro h30
    have hval : validateTransition job .inProgress actor now = none := by
      unfold validateTransition
      rw [if_neg (fun hc => hguard ⟨hc.2.1, hc.2.2⟩), if_pos ⟨hstatus, rfl⟩, hpaused]
      simp only [MAX_PAUSE_DURATION_MINUTES]
      rw [if_neg (not_lt.mpr h30)]
    have key : ∀ db' job',
        transition db now jobId .inProgress actor none reason metadata = .ok (db', job') →
        job'.resumedAt = some now ∧ job'.actualStartTime = job.actualStartTime ∧
          job'.status = .inProgress := by
      intro db' job' hr
      simp [transition, hfind, hcan, hval, hexec] at hr
      obtain ⟨h1, h2⟩ := hr
      subst h2
      simp
    have hex : ∃ r, transition db now jobId .inProgress actor none reason metadata = .ok r := by
      simp [transition, hfind, hcan, hval]
    obtain ⟨⟨db', job'⟩, hr⟩ := hex
    exact ⟨db', job', hr, key db' job' hr⟩

/-- Witness for C9: the concrete paused job (paused at 1000) fails `resume`
at 1031 with `BadRequest` and resumes successfully at 1020 keeping its
`actual_start_time`. -/
theorem paused_resume_guard_witness :
    fxDBPaused.jobs.find? (fun j => j.id == 1) = some fxJobPaused ∧
    fxJobPaused.status = .paused ∧
    fxJobPaused.pausedAt = some 1000 ∧
    ¬(fxCleaner.role.value = "cleaner" ∧ fxJobPaused.cleanerId ≠ some fxCleaner.id) ∧
    ((1031 : ℚ) - 1000 > 30 ∧
      transition fxDBPaused 1031 1 .inProgress fxCleaner none none none =
        .error (.badRequest "Job was paused for more than 30 minutes")) ∧
    ((1020 : ℚ) - 1000 ≤ 30 ∧
      ∃ db' job',
        transition fxDBPaused 1020 1 .inProgress fxCleaner none none none =
          .ok (db', job') ∧
        job'.resumedAt = some 1020 ∧
        job'.actualStartTime = fxJobPaused.actualStartTime ∧
        job'.status = .inProgress) := by
  refine ⟨rfl, rfl, rfl, by decide, ⟨by norm_num, ?_⟩, ⟨by norm_num, ?_⟩⟩
  · exact (paused_resume_guard fxDBPaused 1031 1 fxCleaner none none fxJobPaused 1000
      rfl rfl rfl (by decide)).1 (by norm_num)
  · exact (paused_resume_guard fxDBPaused 1020 1 fxCleaner none none fxJobPaused 1000
      rfl rfl rfl (by decide)).2 (by norm_num)

/-- Rounding an integer is the identity. -/
theorem roundHalfEven_intCast (n : ℤ) : roundHalfEven (n : ℚ) = n := by
  unfold roundHalfEven
  norm_num

/-- `quantize2` always produces a two-decimal amount. -/
theorem isTwoPlaces_quantize2 (q : ℚ) : isTwoPlaces (quantize2 q) :=
  ⟨roundHalfEven (q * 100), rfl⟩

/-- Sums of two-decimal amounts are two-decimal amounts. -/
theorem isTwoPlaces_add {a b : ℚ} (ha : isTwoPlaces a) (hb : isTwoPlaces b) :
    isTwoPlaces (a + b) := by
  obtain ⟨m, hm⟩ := ha
  obtain ⟨n, hn⟩ := hb
  exact ⟨m + n, by rw [hm, hn]; push_cast; ring⟩

/-- Differences of two-decimal amounts are two-decimal amounts. -/
theorem isTwoPlaces_sub {a b : ℚ} (ha : isTwoPlaces a) (hb : isTwoPlaces b) :
    isTwoPlaces (a - b) := by
  obtain ⟨m, hm⟩ := ha
  obtain ⟨n, hn⟩ := hb
  exact ⟨m - n, by rw [hm, hn]; push_cast; ring⟩

/-- `quantize2` fixes two-decimal amounts. -/
theorem quantize2_fix {q : ℚ} (h : isTwoPlaces q) : quantize2 q = q := by
  obtain ⟨n, hn⟩ := h
  subst hn
  unfold quantize2
  rw [show ((n : ℚ) / 100 * 100) = (n : ℚ) by field_simp, roundHalfEven_intCast]

/-- Counterexample for C4: on the spec's own example (subtotal 100, demand
1.05, rush 1.15, discount 10, tax 5%) the code computes a total of 116.29,
not the claimed 120.71. -/
theorem pricing_example_counterexample :
    (calculateBookingPrice ⟨100, none, none, none⟩ 0 0 0 [] 10
        (105/100) (115/100)).totalPrice = 11629/100 ∧
    (11629/100 : ℚ) ≠ 12071/100 := by
  constructor
  · norm_num [calculateBookingPrice, quantize2, roundHalfEven]
  · norm_num

/-- C4 (amended): the booking price composes as
`adjusted_subtotal = round2(subtotal × demand × rush)`,
`tax = round2((adjusted_subtotal − discount) × 0.05)`,
`total = adjusted_subtotal − discount + tax`, where `round2` rounds to two
decimal places with ties to even (Python `Decimal`'s default), and on the
spec's example the total equals 116.29. -/
theorem pricing_composition :
    (∀ (service : ServicePricing) (sq bd ba : ℕ) (addOns : List ℚ)
       (discount demand rush : ℚ),
      isTwoPlaces (service.basePrice + (service.pricePerSqft.getD 0) * sq
        + (service.pricePerBedroom.getD 0) * bd + (service.pricePerBathroom.getD 0) * ba
        + addOns.sum) →
      isTwoPlaces discount →
      (calculateBookingPrice service sq bd ba addOns discount demand rush).subtotalBeforeDynamic
          + (calculateBookingPrice service sq bd ba addOns discount demand rush).dynamicAdjustment
        = quantize2 ((service.basePrice + (service.pricePerSqft.getD 0) * sq
            + (service.pricePerBedroom.getD 0) * bd + (service.pricePerBathroom.getD 0) * ba
            + addOns.sum) * (demand * rush)) ∧
      (calculateBookingPrice service sq bd ba addOns discount demand rush).taxAmount
        = quantize2 (((calculateBookingPrice service sq bd ba addOns discount demand
              rush).subtotalBeforeDynamic
            + (calculateBookingPrice service sq bd ba addOns discount demand
              rush).dynamicAdjustment - discount) * (5/100)) ∧
      (calculateBookingPrice service sq bd ba addOns discount demand rush).totalPrice
        = (calculateBookingPrice service sq bd ba addOns discount demand
            rush).subtotalBeforeDynamic
          + (calculateBookingPrice service sq bd ba addOns discount demand
            rush).dynamicAdjustment
          - discount
          + (calculateBookingPrice service sq bd ba addOns discount demand rush).taxAmount) ∧
    (calculateBookingPrice ⟨100, none, none, none⟩ 0 0 0 [] 10
        (105/100) (115/100)).totalPrice = 11629/100 := by
  constructor
  · intro service sq bd ba addOns discount demand rush hsub hdisc
    set subtotal := service.basePrice + (service.pricePerSqft.getD 0) * sq
      + (service.pricePerBedroom.getD 0) * bd + (service.pricePerBathroom.getD 0) * ba
      + addOns.sum with hsubdef
    have hadj : isTwoPlaces (quantize2 (subtotal * (demand * rush))) :=
      isTwoPlaces_quantize2 _
    have key : (calculateBookingPrice service sq bd ba addOns discount demand
        rush).subtotalBeforeDynamic
        + (calculateBookingPrice service sq bd ba addOns discount demand
          rush).dynamicAdjustment
        = quantize2 (subtotal * (demand * rush)) := by
      show quantize2 subtotal + quantize2 (quantize2 (subtotal * (demand * rush)) - subtotal)
        = quantize2 (subtotal * (demand * rush))
      rw [quantize2_fix hsub, quantize2_fix (isTwoPlaces_sub hadj hsub)]
      ring
    refine ⟨key, ?_, ?_⟩
    · rw [key]
      rfl
    · rw [key]
      show quantize2 (quantize2 (subtotal * (demand * rush)) - discount
          + quantize2 ((quantize2 (subtotal * (demand * rush)) - discount) * (5 / 100)))
        = quantize2 (subtotal * (demand * rush)) - discount
          + quantize2 ((quantize2 (subtotal * (demand * rush)) - discount) * (5 / 100))
      exact quantize2_fix (isTwoPlaces_add (isTwoPlaces_sub hadj hdisc)
        (isTwoPlaces_quantize2 _))
  · norm_num [calculateBookingPrice, quantize2, roundHalfEven]

/-- Witness for C4 (amended): the composition at the spec's example inputs,
whose subtotal 100 and discount 10 are exact two-decimal amounts. -/
theorem pricing_composition_witness :
    isTwoPlaces ((100 : ℚ) + 0 * 0 + 0 * 0 + 0 * 0 + ([] : List ℚ).sum) ∧
    isTwoPlaces (10 : ℚ) ∧
    (calculateBookingPrice ⟨100, none, none, none⟩ 0 0 0 [] 10
        (105/100) (115/100)).totalPrice
      = (calculateBookingPrice ⟨100, none, none, none⟩ 0 0 0 [] 10
          (105/100) (115/100)).subtotalBeforeDynamic
        + (calculateBookingPrice ⟨100, none, none, none⟩ 0 0 0 [] 10
          (105/100) (115/100)).dynamicAdjustment
        - 10
        + (calculateBookingPrice ⟨100, none, none, none⟩ 0 0 0 [] 10
          (105/100) (115/100)).taxAmount := by
  refine ⟨⟨10000, by norm_num⟩, ⟨1000, by norm_num⟩, ?_⟩
  exact ((pricing_composition.1 ⟨100, none, none, none⟩ 0 0 0 [] 10 (105/100) (115/100)
    ⟨10000, by norm_num⟩ ⟨1000, by norm_num⟩).2.2)

/-- Counterexample for C3: the payment-timeout sweep cancels the stale
booking but leaves its `version` at 3 — it never routes through the state
machine, so the version is NOT incremented as the claim asserts. -/
theorem payment_timeout_version_counterexample :
    isStaleUnpaid 16 fxJobUnpaid = true ∧
    (cancelUnpaidBookings fxDBUnpaid 16).1.jobs.map Booking.status = [.cancelled] ∧
    (cancelUnpaidBookings fxDBUnpaid 16).1.jobs.map Booking.version = [3] ∧
    fxJobUnpaid.version = 3 := by
  have hstale : isStaleUnpaid 16 fxJobUnpaid = true := by
    norm_num [isStaleUnpaid, fxJobUnpaid, fxJobInProgress, PAYMENT_TIMEOUT_MINUTES]
  refine ⟨hstale, ?_, ?_, rfl⟩
  · simp [cancelUnpaidBookings, fxDBUnpaid, hstale]
  · simp [cancelUnpaidBookings, fxDBUnpaid, hstale]
    rfl

/-- C3 (amended): the payment-timeout sweep directly marks every stale
`PENDING/PENDING` booking (created more than 15 minutes ago) `CANCELLED` with
`cancelled_at = now` and a cancellation reason containing "Payment timeout",
and appends a status-history row recording `PENDING → CANCELLED` with the
system actor (`changed_by = None`); it bypasses the state machine, so the
booking's `version` is unchanged. -/
theorem payment_timeout_sweep :
    ∀ (db : DB) (now : ℚ) (job : Booking),
      job ∈ db.jobs →
      job.status = .pending →
      job.paymentStatus = .pending →
      job.createdAt < now - PAYMENT_TIMEOUT_MINUTES →
      ({ job with
          status := .cancelled,
          cancelledAt := some now,
          cancellationReason :=
            some "Payment timeout - booking auto-cancelled after 15 minutes" }
          ∈ (cancelUnpaidBookings db now).1.jobs) ∧
      (Booking.version { job with
          status := BookingStatus.cancelled,
          cancelledAt := some now,
          cancellationReason :=
            some "Payment timeout - booking auto-cancelled after 15 minutes" }
        = job.version) ∧
      ("Payment timeout".toList <:+:
        "Payment timeout - booking auto-cancelled after 15 minutes".toList) ∧
      ((⟨job.id, some .pending, .cancelled, none,
          "Auto-cancelled: Payment not received within 15 minutes"⟩ : HistoryRow)
        ∈ (cancelUnpaidBookings db now).1.histories) := by
  intro db now job hmem hst hpay hcreated
  have hstale : isStaleUnpaid now job = true := by
    simp [isStaleUnpaid, hst, hpay, hcreated]
  refine ⟨?_, rfl, ?_, ?_⟩
  · have := List.mem_map_of_mem
      (fun j => if isStaleUnpaid now j then
        { j with
          status := BookingStatus.cancelled,
          cancelledAt := some now,
          cancellationReason :=
            some "Payment timeout - booking auto-cancelled after 15 minutes" }
        else j) hmem
    simp only [hstale, if_true] at this
    simpa [cancelUnpaidBookings] using this
  · exact ⟨[], " - booking auto-cancelled after 15 minutes".toList, by simp⟩
  · have hjstale : job ∈ db.jobs.filter (isStaleUnpaid now) :=
      List.mem_filter.mpr ⟨hmem, hstale⟩
    have := List.mem_map_of_mem
      (fun j => HistoryRow.mk j.id (some .pending) .cancelled none
        "Auto-cancelled: Payment not received within 15 minutes") hjstale
    simp only [cancelUnpaidBookings]
    exact List.mem_append_right _ this

/-- Witness for C3 (amended): the concrete unpaid booking created at time 0
is found cancelled (version still 3) by a sweep at time 16, with the system
history row recorded. -/
theorem payment_timeout_sweep_witness :
    fxJobUnpaid ∈ fxDBUnpaid.jobs ∧
    fxJobUnpaid.status = .pending ∧
    fxJobUnpaid.paymentStatus = .pending ∧
    fxJobUnpaid.createdAt < 16 - PAYMENT_TIMEOUT_MINUTES ∧
    ({ fxJobUnpaid with
        status := .cancelled,
        cancelledAt := some 16,
        cancellationReason :=
          some "Payment timeout - booking auto-cancelled after 15 minutes" }
        ∈ (cancelUnpaidBookings fxDBUnpaid 16).1.jobs) ∧
    ((⟨2, some .pending, .cancelled, none,
        "Auto-cancelled: Payment not received within 15 minutes"⟩ : HistoryRow)
      ∈ (cancelUnpaidBookings fxDBUnpaid 16).1.histories) := by
  have h1 : fxJobUnpaid ∈ fxDBUnpaid.jobs := by simp [fxDBUnpaid]
  have h4 : fxJobUnpaid.createdAt < 16 - PAYMENT_TIMEOUT_MINUTES := by
    norm_num [fxJobUnpaid, fxJobInProgress, PAYMENT_TIMEOUT_MINUTES]
  have h := payment_timeout_sweep fxDBUnpaid 16 fxJobUnpaid h1 rfl rfl h4
  exact ⟨h1, rfl, rfl, h4, h.1, h.2.2.2⟩

/-- C10: the allocation engine's per-candidate commit writes only
`assigned_employee_id`, `assigned_at` and `sla_deadline` on the booking row,
leaving its `status` and `version` untouched, and mutates no worker state
(neither employees nor profiles), no history, no audit row and no event. -/
theorem attempt_assignment_frame :
    ∀ (db : DB) (booking : Booking) (cleaner : Employee) (now : ℚ) (job : Booking),
      db.jobs.find? (fun j => j.id == booking.id) = some job →
      hasTimeConflict db.jobs cleaner.id booking.scheduledDate (5/2)
        (some booking.id) = false →
      ∃ db',
        attemptAssignment db booking cleaner now = some db' ∧
        db'.jobs.find? (fun j => j.id == booking.id) =
          some { job with
            assignedEmployeeId := some cleaner.id,
            assignedAt := some now,
            slaDeadline := some (booking.scheduledDate + 10) } ∧
        Booking.status { job with
            assignedEmployeeId := some cleaner.id,
            assignedAt := some now,
            slaDeadline := some (booking.scheduledDate + 10) } = job.status ∧
        Booking.version { job with
            assignedEmployeeId := some cleaner.id,
            assignedAt := some now,
            slaDeadline := some (booking.scheduledDate + 10) } = job.version ∧
        db'.profiles = db.profiles ∧
        db'.employees = db.employees ∧
        db'.events = db.events ∧
        db'.histories = db.histories ∧
        db'.audits = db.audits ∧
        db'.wallets = db.wallets := by
  intro db booking cleaner now job hfind hconf
  have hp : (fun j => j.id == booking.id)
      ({ job with
        assignedEmployeeId := some cleaner.id,
        assignedAt := some now,
        slaDeadline := some (booking.scheduledDate + 10) }) = true := by
    simpa using List.find?_some hfind
  refine ⟨{ db with jobs := updateFirst (fun j => j.id == booking.id) (fun j => { j with assignedEmployeeId := some cleaner.id, assignedAt := some now, slaDeadline := some (booking.scheduledDate + 10) }) db.jobs }, ?_, ?_, rfl, rfl, rfl, rfl, rfl, rfl, rfl, rfl⟩
  · unfold attemptAssignment
    rw [hconf]
    simp
  · simpa using updateFirst_find? hfind hp

/-- Witness for C10: committing Dubai worker 101 onto the concrete unassigned
booking writes only the three assignment columns. -/
theorem attempt_assignment_frame_witness :
    fxAllocDB.jobs.find? (fun j => j.id == fxBookingUnassigned.id)
      = some fxBookingUnassigned ∧
    hasTimeConflict fxAllocDB.jobs fxEmpDXB1.id fxBookingUnassigned.scheduledDate (5/2)
      (some fxBookingUnassigned.id) = false ∧
    ∃ db',
      attemptAssignment fxAllocDB fxBookingUnassigned fxEmpDXB1 2000 = some db' ∧
      db'.jobs.find? (fun j => j.id == fxBookingUnassigned.id) =
        some { fxBookingUnassigned with
          assignedEmployeeId := some fxEmpDXB1.id,
          assignedAt := some 2000,
          slaDeadline := some (fxBookingUnassigned.scheduledDate + 10) } ∧
      db'.profiles = fxAllocDB.profiles ∧
      db'.employees = fxAllocDB.employees := by
  have h1 : fxAllocDB.jobs.find? (fun j => j.id == fxBookingUnassigned.id)
      = some fxBookingUnassigned := rfl
  have h2 : hasTimeConflict fxAllocDB.jobs fxEmpDXB1.id
      fxBookingUnassigned.scheduledDate (5/2) (some fxBookingUnassigned.id) = false := rfl
  obtain ⟨db', ha, hb, -, -, hc, hd, -⟩ :=
    attempt_assignment_frame fxAllocDB fxBookingUnassigned fxEmpDXB1 2000
      fxBookingUnassigned h1 h2
  exact ⟨h1, h2, db', ha, hb, hc, hd⟩

/-- C7: with an empty primary candidate set and expansion enabled, the engine
concatenates the adjacent regions' candidate sets and reports
`region_expanded = true` when any are found; if still empty and fallback is
enabled it uses all active workers and reports `fallback_used = true`; with no
candidates at all it fails with the "no available cleaners" reason. -/
theorem region_fallback_policy :
    ∀ (cfg : AllocationConfig) (hav : ℚ × ℚ → ℚ × ℚ → ℚ) (db : DB)
      (booking : Booking) (dur now : ℚ) (region : Region),
      getBookingRegion booking = some region →
      cfg.expandToAdjacentRegions = true →
      cfg.fallbackToAnyRegion = true →
      getScoredCandidates cfg hav db region booking.scheduledDate dur
        (getBookingCoordinates booking) (some booking.id) = [] →
      (((adjacentRegions region).flatMap (fun r =>
          getScoredCandidates cfg hav db r booking.scheduledDate dur
            (getBookingCoordinates booking) (some booking.id)) ≠ [] →
        (allocateCleaner cfg hav db booking dur now).1.regionExpanded = true ∧
        (allocateCleaner cfg hav db booking dur now).1.fallbackUsed = false) ∧
       ((adjacentRegions region).flatMap (fun r =>
          getScoredCandidates cfg hav db r booking.scheduledDate dur
            (getBookingCoordinates booking) (some booking.id)) = [] →
        (getAllAvailableCandidates cfg hav db booking.scheduledDate dur
            (getBookingCoordinates booking) (some booking.id) ≠ [] →
          (allocateCleaner cfg hav db booking dur now).1.fallbackUsed = true ∧
          (allocateCleaner cfg hav db booking dur now).1.regionExpanded = false) ∧
        (getAllAvailableCandidates cfg hav db booking.scheduledDate dur
            (getBookingCoordinates booking) (some booking.id) = [] →
          allocateCleaner cfg hav db booking dur now =
            (⟨false, none, 0, false, false, some "No available cleaners found"⟩, db)))) := by
  intro cfg hav db booking dur now region hreg hexp hfb hprim
  refine ⟨?_, ?_⟩
  · intro hadj
    have hae : ((adjacentRegions region).flatMap (fun r =>
        getScoredCandidates cfg hav db r booking.scheduledDate dur
          (getBookingCoordinates booking) (some booking.id))).isEmpty = false := by
      simpa [List.isEmpty_iff] using hadj
    unfold allocateCleaner
    rw [hreg]
    simp only [hprim, hexp, List.isEmpty_nil, true_and, if_true, hae, false_and,
      if_false, Bool.false_eq_true]
    split <;> simp [hae]
  · intro hadjEmpty
    refine ⟨?_, ?_⟩
    · intro hall
      have hae : (getAllAvailableCandidates cfg hav db booking.scheduledDate dur
          (getBookingCoordinates booking) (some booking.id)).isEmpty = false := by
        simpa [List.isEmpty_iff] using hall
      unfold allocateCleaner
      rw [hreg]
      simp only [hprim, hexp, hfb, hadjEmpty, List.isEmpty_nil, true_and, if_true,
        hae, if_false, Bool.false_eq_true]
      split <;> simp [hae]
    · intro hallEmpty
      unfold allocateCleaner
      rw [hreg]
      simp only [hprim, hexp, hfb, hadjEmpty, hallEmpty, List.isEmpty_nil, true_and,
        if_true, if_false]

/-- Witness for C7: a Sharjah booking with zero Sharjah candidates is served
from adjacent Dubai with `region_expanded = true`, and with no workers at all
the engine fails with "No available cleaners found". -/
theorem region_fallback_policy_witness :
    getBookingRegion fxBookingSHJ = some .SHJ ∧
    defaultAllocationConfig.expandToAdjacentRegions = true ∧
    defaultAllocationConfig.fallbackToAnyRegion = true ∧
    getScoredCandidates defaultAllocationConfig fxHavZero fxAllocDBSHJ .SHJ
      fxBookingSHJ.scheduledDate (5/2) (getBookingCoordinates fxBookingSHJ)
      (some fxBookingSHJ.id) = [] ∧
    (adjacentRegions .SHJ).flatMap (fun r =>
      getScoredCandidates defaultAllocationConfig fxHavZero fxAllocDBSHJ r
        fxBookingSHJ.scheduledDate (5/2) (getBookingCoordinates fxBookingSHJ)
        (some fxBookingSHJ.id)) ≠ [] ∧
    (allocateCleaner defaultAllocationConfig fxHavZero fxAllocDBSHJ fxBookingSHJ
      (5/2) 2000).1.regionExpanded = true ∧
    (allocateCleaner defaultAllocationConfig fxHavZero fxAllocDBSHJ fxBookingSHJ
      (5/2) 2000).1.fallbackUsed = false ∧
    allocateCleaner defaultAllocationConfig fxHavZero fxAllocDBEmpty fxBookingSHJ
      (5/2) 2000 =
      (⟨false, none, 0, false, false, some "No available cleaners found"⟩,
        fxAllocDBEmpty) := by
  have hreg : getBookingRegion fxBookingSHJ = some .SHJ := by decide
  have hprim : getScoredCandidates defaultAllocationConfig fxHavZero fxAllocDBSHJ .SHJ
      fxBookingSHJ.scheduledDate (5/2) (getBookingCoordinates fxBookingSHJ)
      (some fxBookingSHJ.id) = [] := rfl
  have hadj : (adjacentRegions .SHJ).flatMap (fun r =>
      getScoredCandidates defaultAllocationConfig fxHavZero fxAllocDBSHJ r
        fxBookingSHJ.scheduledDate (5/2) (getBookingCoordinates fxBookingSHJ)
        (some fxBookingSHJ.id)) ≠ [] := by decide
  have h := (region_fallback_policy defaultAllocationConfig fxHavZero fxAllocDBSHJ
    fxBookingSHJ (5/2) 2000 .SHJ hreg rfl rfl hprim).1 hadj
  have hprim2 : getScoredCandidates defaultAllocationConfig fxHavZero fxAllocDBEmpty .SHJ
      fxBookingSHJ.scheduledDate (5/2) (getBookingCoordinates fxBookingSHJ)
      (some fxBookingSHJ.id) = [] := rfl
  have h2 := ((region_fallback_policy defaultAllocationConfig fxHavZero fxAllocDBEmpty
    fxBookingSHJ (5/2) 2000 .SHJ hreg rfl rfl hprim2).2 rfl).2 rfl
  exact ⟨hreg, rfl, rfl, hprim, hadj, h.1, h.2, h2⟩

/-- Cleaner-status updates do not touch the wallet table. -/
theorem updateCleanerStatus_wallets (db : DB) (now : ℚ) (cid : Nat)
    (st : CleanerStatus) (cd : ℚ) :
    (updateCleanerStatus db now cid st cd).wallets = db.wallets := by
  unfold updateCleanerStatus
  split
  · rfl
  · simp only []
    split_ifs <;> rfl

/-- Cleaner-status updates do not touch the referral table. -/
theorem updateCleanerStatus_referrals (db : DB) (now : ℚ) (cid : Nat)
    (st : CleanerStatus) (cd : ℚ) :
    (updateCleanerStatus db now cid st cd).referrals = db.referrals := by
  unfold updateCleanerStatus
  split
  · rfl
  · simp only []
    split_ifs <;> rfl

/-- Cleaner-status updates do not change wallet availability. -/
theorem updateCleanerStatus_walletAvailable (db : DB) (now : ℚ) (cid : Nat)
    (st : CleanerStatus) (cd : ℚ) :
    (updateCleanerStatus db now cid st cd).walletAvailable = db.walletAvailable := by
  unfold updateCleanerStatus
  split
  · rfl
  · simp only []
    split_ifs <;> rfl

/-- Stats increments touch only the profile table. -/
theorem incrementCleanerStats_wallets (db : DB) (cid : Nat) (completed : Bool) :
    (incrementCleanerStats db cid completed).wallets = db.wallets := rfl

/-- Stats increments do not touch the referral table. -/
theorem incrementCleanerStats_referrals (db : DB) (cid : Nat) (completed : Bool) :
    (incrementCleanerStats db cid completed).referrals = db.referrals := rfl

/-- Stats increments do not change wallet availability. -/
theorem incrementCleanerStats_walletAvailable (db : DB) (cid : Nat) (completed : Bool) :
    (incrementCleanerStats db cid completed).walletAvailable = db.walletAvailable := rfl

/-- Event publication does not touch the profile table. -/
theorem publishTransitionEvent_profiles (db : DB) (job : Booking)
    (oldStatus newStatus : BookingStatus) :
    (publishTransitionEvent db job oldStatus newStatus).profiles = db.profiles := by
  unfold publishTransitionEvent
  split <;> rfl

/-- Event publication does not touch the wallet table. -/
theorem publishTransitionEvent_wallets (db : DB) (job : Booking)
    (oldStatus newStatus : BookingStatus) :
    (publishTransitionEvent db job oldStatus newStatus).wallets = db.wallets := by
  unfold publishTransitionEvent
  split <;> rfl

/-- With no pending referral for the customer, referral completion is a no-op. -/
theorem completePendingReferral_none (db : DB) (now : ℚ) (customerId bookingId : Nat)
    (href : db.referrals.find?
      (fun r => r.referredId == customerId && r.status == .pending) = none) :
    completePendingReferral db now customerId bookingId = db := by
  unfold completePendingReferral
  rw [href]

/-- Completion rewards do not touch the profile table. -/
theorem processCompletionRewards_profiles (db : DB) (now : ℚ) (job : Booking) :
    (processCompletionRewards db now job).profiles = db.profiles := by
  have hcpr : ∀ (d : DB) (c b : Nat),
      (completePendingReferral d now c b).profiles = d.profiles := by
    intro d c b
    unfold completePendingReferral
    split
    · rfl
    · simp only []
      split_ifs <;>
        simp only [addReferralReward, createCreditTransaction, getOrCreateWallet] <;>
        (try split) <;> rfl
  unfold processCompletionRewards
  rw [hcpr]
  split
  · simp only []
    split_ifs <;>
      simp only [createCreditTransaction, getOrCreateWallet] <;> (try split) <;> rfl
  · rfl

/-- Wallet credits do not touch the referral table. -/
theorem createCreditTransaction_referrals (db : DB) (u : Nat) (ty : TransactionType)
    (amount : ℚ) (d : String) :
    (createCreditTransaction db u ty amount d).referrals = db.referrals := rfl

/-- Moving a found profile to `cooling_down` with a positive cooldown stamps
the status, `updated_at` and the expiry on that row. -/
theorem updateCleanerStatus_cooling_find (db : DB) (now : ℚ) (cid : Nat) (cd : ℚ)
    (profile : CleanerProfile)
    (h : db.profiles.find? (fun p => p.userId == cid) = some profile)
    (hcd : cd > 0) :
    (updateCleanerStatus db now cid .coolingDown cd).profiles.find?
        (fun p => p.userId == cid)
      = some { profile with
          status := .coolingDown, updatedAt := now,
          cooldownExpiresAt := some (now + cd) } := by
  have hkey : (profile.userId == cid) = true := by simpa using List.find?_some h
  unfold updateCleanerStatus
  rw [h]
  simp only [hcd, eq_self_iff_true, true_and, if_true]
  split_ifs <;>
    rw [updateFirst_find? h (by simp [hkey])] <;>
    simp

/-- With the customer's wallet present, wallet available, positive rounded
cashback and no pending referral, completion rewards credit exactly the
rounded 5% cashback to that wallet. -/
theorem processCompletionRewards_wallet (db : DB) (now : ℚ) (job : Booking)
    (total : ℚ) (w : Wallet)
    (htot : job.totalPrice = some total) (hpos : 0 < total)
    (hq : 0 < quantize2 (total * CASHBACK_PERCENTAGE))
    (hw : db.wallets.find? (fun x => x.userId == job.customerId) = some w)
    (href : db.referrals.find?
      (fun r => r.referredId == job.customerId && r.status == .pending) = none)
    (hav : db.walletAvailable = true) :
    (processCompletionRewards db now job).wallets.find?
        (fun x => x.userId == job.customerId)
      = some { w with
          balance := w.balance + quantize2 (total * CASHBACK_PERCENTAGE),
          totalCredits := w.totalCredits + quantize2 (total * CASHBACK_PERCENTAGE),
          totalCashback := w.totalCashback + quantize2 (total * CASHBACK_PERCENTAGE) } := by
  have hkeyw : (w.userId == job.customerId) = true := by simpa using List.find?_some hw
  have huid : w.userId = job.customerId := by simpa using hkeyw
  have hgo : getOrCreateWallet db job.customerId = (db, w) := by
    unfold getOrCreateWallet
    rw [hw]
  unfold processCompletionRewards
  rw [htot]
  simp only [hpos, if_true, hq, hav, hgo, if_true]
  have hcpr := completePendingReferral_none
    (createCreditTransaction db w.userId TransactionType.cashback
      (quantize2 (total * CASHBACK_PERCENTAGE))
      ("5% cashback from booking #" ++ job.bookingNumber)) now job.customerId job.id
    (by simpa [createCreditTransaction] using href)
  rw [hcpr]
  unfold createCreditTransaction
  simp only [huid]
  rw [updateFirst_find? hw (by simp [huid])]
  simp [huid]

/-- With the wallet collaborator unavailable and no pending referral,
completion rewards change nothing (the failure is swallowed). -/
theorem processCompletionRewards_noWallet (db : DB) (now : ℚ) (job : Booking)
    (href : db.referrals.find?
      (fun r => r.referredId == job.customerId && r.status == .pending) = none)
    (hav : db.walletAvailable = false) :
    processCompletionRewards db now job = db := by
  unfold processCompletionRewards
  split
  · simp only [hav, Bool.false_eq_true, if_false]
    split_ifs <;> exact completePendingReferral_none _ now _ _ href
  · exact completePendingReferral_none _ now _ _ href

/-- Full characterisation of a successful `transition`: the returned job is
the side-effect-phase job with status/version/updated_at stamped, and the
returned database carries the side-effect-phase tables plus the appended
history row and the mapped event. -/
theorem transition_ok_full (db : DB) (now : ℚ) (jobId : Nat) (t : BookingStatus)
    (actor : User) (ev : Option Int) (reason metadata : Option String)
    (job : Booking) (db' : DB) (job' : Booking)
    (hfind : db.jobs.find? (fun j => j.id == jobId) = some job)
    (heq : transition db now jobId t actor ev reason metadata = .ok (db', job')) :
    job' = { (executeTransitionActions db now job job.status t actor reason).2 with
      status := t,
      version := (executeTransitionActions db now job job.status t actor reason).2.version + 1,
      updatedAt := now } ∧
    db'.profiles = (executeTransitionActions db now job job.status t actor reason).1.profiles ∧
    db'.wallets = (executeTransitionActions db now job job.status t actor reason).1.wallets ∧
    db'.histories = (executeTransitionActions db now job job.status t actor reason).1.histories
      ++ [⟨(executeTransitionActions db now job job.status t actor reason).2.id,
           some job.status, t, some actor.id,
           reason.getD (getDefaultReason job.status t)⟩] ∧
    db'.events = (executeTransitionActions db now job job.status t actor reason).1.events
      ++ (match transitionEventType job.status t with
          | none => []
          | some ty =>
            [Event.jobEvent ty
              (executeTransitionActions db now job job.status t actor reason).2.id
              (executeTransitionActions db now job job.status t actor reason).2.bookingNumber
              t.value job.status.value
              (executeTransitionActions db now job job.status t actor reason).2.cleanerId
              (executeTransitionActions db now job job.status t actor reason).2.customerId]) := by
  unfold transition at heq
  rw [hfind] at heq
  simp only [] at heq
  split at heq
  · exact absurd heq (by simp)
  · split at heq
    · exact absurd heq (by simp)
    · split at heq
      · exact absurd heq (by simp)
      · simp only [Except.ok.injEq, Prod.mk.injEq] at heq
        obtain ⟨hdb', hjob'⟩ := heq
        subst hdb' hjob'
        refine ⟨rfl, ?_, ?_, ?_, ?_⟩
        · rw [publishTransitionEvent_profiles]
        · rw [publishTransitionEvent_wallets]
        · unfold publishTransitionEvent
          split <;> rfl
        · unfold publishTransitionEvent
          rcases hty : transitionEventType job.status t with _ | ty
          · simp [hty]
          · simp [hty]

/-- C8: an `IN_PROGRESS → COMPLETED` transition with an attached worker sets
`actual_end_time = now`, puts the worker's profile in `cooling_down` with
`cooldown_expires_at = now + 15 min`, increments the worker's completed count
by exactly 1, and credits the rounded 5% cashback of the job's total to the
customer's wallet; an unavailable wallet collaborator is swallowed and does
not fail the transition. -/
theorem completion_side_effects :
    ∀ (db : DB) (now : ℚ) (jobId : Nat) (actor : User) (reason metadata : Option String)
      (job : Booking) (uid : Nat) (profile : CleanerProfile) (total : ℚ) (w : Wallet),
      db.jobs.find? (fun j => j.id == jobId) = some job →
      job.status = .inProgress →
      job.cleanerId = some uid →
      db.profiles.find? (fun p => p.userId == uid) = some profile →
      job.totalPrice = some total →
      0 < total →
      db.wallets.find? (fun x => x.userId == job.customerId) = some w →
      db.referrals.find?
        (fun r => r.referredId == job.customerId && r.status == .pending) = none →
      ∃ db' job',
        transition db now jobId .completed actor none reason metadata = .ok (db', job') ∧
        job'.actualEndTime = some now ∧
        db'.profiles.find? (fun p => p.userId == uid)
          = some { profile with
              status := .coolingDown, updatedAt := now,
              cooldownExpiresAt := some (now + COOLDOWN_DURATION_MINUTES),
              totalJobsCompleted := some (profile.totalJobsCompleted.getD 0 + 1) } ∧
        (db.walletAvailable = true → 0 < quantize2 (total * CASHBACK_PERCENTAGE) →
          db'.wallets.find? (fun x => x.userId == job.customerId)
            = some { w with
                balance := w.balance + quantize2 (total * CASHBACK_PERCENTAGE),
                totalCredits := w.totalCredits + quantize2 (total * CASHBACK_PERCENTAGE),
                totalCashback := w.totalCashback + quantize2 (total * CASHBACK_PERCENTAGE) }) ∧
        (db.walletAvailable = false → db'.wallets = db.wallets) := by
  intro db now jobId actor reason metadata job uid profile total w
  intro hfind hstatus hcid hprof htot hpos hw href
  have hcan : canTransition job.status .completed = true := by
    rw [hstatus]; decide
  have hval : validateTransition job .completed actor now = none := by
    unfold validateTransition
    simp
  have hexec : executeTransitionActions db now job job.status .completed actor reason
      = (processCompletionRewards
          (incrementCleanerStats
            (updateCleanerStatus db now uid .coolingDown COOLDOWN_DURATION_MINUTES)
            uid true)
          now { job with actualEndTime := some now },
        { job with actualEndTime := some now }) := by
    unfold executeTransitionActions
    simp [hcid]
  have hp1 := updateCleanerStatus_cooling_find db now uid COOLDOWN_DURATION_MINUTES
    profile hprof (by norm_num [COOLDOWN_DURATION_MINUTES])
  have hkeyp : (profile.userId == uid) = true := by
    simpa using List.find?_some hprof
  have hp2 : (incrementCleanerStats
      (updateCleanerStatus db now uid .coolingDown COOLDOWN_DURATION_MINUTES)
      uid true).profiles.find? (fun p => p.userId == uid)
      = some { profile with
          status := .coolingDown, updatedAt := now,
          cooldownExpiresAt := some (now + COOLDOWN_DURATION_MINUTES),
          totalJobsCompleted := some (profile.totalJobsCompleted.getD 0 + 1) } := by
    unfold incrementCleanerStats
    simp only []
    rw [updateFirst_find? hp1 (by simp [hkeyp])]
    simp
  have hwfr : (incrementCleanerStats
      (updateCleanerStatus db now uid .coolingDown COOLDOWN_DURATION_MINUTES)
      uid true).wallets = db.wallets := by
    rw [incrementCleanerStats_wallets, updateCleanerStatus_wallets]
  have hrfr : (incrementCleanerStats
      (updateCleanerStatus db now uid .coolingDown COOLDOWN_DURATION_MINUTES)
      uid true).referrals = db.referrals := by
    rw [incrementCleanerStats_referrals, updateCleanerStatus_referrals]
  have havfr : (incrementCleanerStats
      (updateCleanerStatus db now uid .coolingDown COOLDOWN_DURATION_MINUTES)
      uid true).walletAvailable = db.walletAvailable := by
    rw [incrementCleanerStats_walletAvailable, updateCleanerStatus_walletAvailable]
  have hex : ∃ r, transition db now jobId .completed actor none reason metadata
      = .ok r := by
    simp [transition, hfind, hcan, hval]
  obtain ⟨⟨db', job'⟩, hr⟩ := hex
  have full := transition_ok_full db now jobId .completed actor none reason metadata
    job db' job' hfind hr
  rw [hexec] at full
  obtain ⟨hjob', hprofiles, hwallets, -, -⟩ := full
  refine ⟨db', job', hr, ?_, ?_, ?_, ?_⟩
  · rw [hjob']
  · rw [hprofiles]
    simpa [processCompletionRewards_profiles] using hp2
  · intro hav hq
    rw [hwallets]
    show (processCompletionRewards _ now { job with actualEndTime := some now }).wallets.find?
      _ = _
    rw [processCompletionRewards_wallet _ now ({ job with actualEndTime := some now })
      total w htot hpos hq (by simpa [hwfr] using hw) (by simpa [hrfr] using href)
      (by rw [havfr]; exact hav)]
  · intro hav
    rw [hwallets]
    show (processCompletionRewards _ now { job with actualEndTime := some now }).wallets = _
    rw [processCompletionRewards_noWallet _ now ({ job with actualEndTime := some now })
      (by simpa [hrfr] using href) (by rw [havfr]; exact hav)]
    exact hwfr

/-- Witness for C8: completing the concrete in-progress job at time 2000
cools worker 20 down until 2015, bumps their completed count from 3 to 4,
and credits 10 (5% of 200) to customer 10's wallet. -/
theorem completion_side_effects_witness :
    fxDB.jobs.find? (fun j => j.id == 1) = some fxJobInProgress ∧
    fxJobInProgress.status = .inProgress ∧
    fxJobInProgress.cleanerId = some 20 ∧
    fxDB.profiles.find? (fun p => p.userId == 20) = some fxProfile ∧
    fxJobInProgress.totalPrice = some 200 ∧
    (0 : ℚ) < 200 ∧
    fxDB.wallets.find? (fun x => x.userId == fxJobInProgress.customerId)
      = some fxWallet ∧
    fxDB.referrals.find?
      (fun r => r.referredId == fxJobInProgress.customerId && r.status == .pending)
      = none ∧
    ∃ db' job',
      transition fxDB 2000 1 .completed fxCleaner none none none = .ok (db', job') ∧
      job'.actualEndTime = some 2000 ∧
      db'.profiles.find? (fun p => p.userId == 20)
        = some { fxProfile with
            status := .coolingDown, updatedAt := 2000,
            cooldownExpiresAt := some (2000 + COOLDOWN_DURATION_MINUTES),
            totalJobsCompleted := some (fxProfile.totalJobsCompleted.getD 0 + 1) } ∧
      (fxDB.walletAvailable = true → 0 < quantize2 (200 * CASHBACK_PERCENTAGE) →
        db'.wallets.find? (fun x => x.userId == fxJobInProgress.customerId)
          = some { fxWallet with
              balance := fxWallet.balance + quantize2 (200 * CASHBACK_PERCENTAGE),
              totalCredits := fxWallet.totalCredits + quantize2 (200 * CASHBACK_PERCENTAGE),
              totalCashback :=
                fxWallet.totalCashback + quantize2 (200 * CASHBACK_PERCENTAGE) }) ∧
      (fxDB.walletAvailable = false → db'.wallets = fxDB.wallets) := by
  refine ⟨rfl, rfl, rfl, rfl, rfl, by norm_num, rfl, rfl, ?_⟩
  exact completion_side_effects fxDB 2000 1 fxCleaner none none fxJobInProgress 20
    fxProfile 200 fxWallet rfl rfl rfl rfl rfl (by norm_num) rfl rfl

/-- The side-effect phase never touches the job's `cleaner_id` column. -/
theorem executeTransitionActions_cleanerId (db : DB) (now : ℚ) (job : Booking)
    (oldStatus newStatus : BookingStatus) (actor : User) (reason : Option String) :
    (executeTransitionActions db now job oldStatus newStatus actor reason).2.cleanerId
      = job.cleanerId := by
  unfold executeTransitionActions
  cases hc : job.cleanerId <;> cases newStatus <;> cases oldStatus <;> simp [hc]

/-- A transition to `COMPLETED` stamps `actual_end_time = now` on the job. -/
theorem executeTransitionActions_completed_actualEnd (db : DB) (now : ℚ) (job : Booking)
    (oldStatus : BookingStatus) (actor : User) (reason : Option String) :
    (executeTransitionActions db now job oldStatus .completed actor reason).2.actualEndTime
      = some now := by
  unfold executeTransitionActions
  cases hc : job.cleanerId <;> simp [hc]

/-- Cleaner-status updates add no `JOB_COMPLETED` event. -/
theorem updateCleanerStatus_events_filter (db : DB) (now : ℚ) (cid : Nat)
    (st : CleanerStatus) (cd : ℚ) :
    (updateCleanerStatus db now cid st cd).events.filter isJobCompletedEvent
      = db.events.filter isJobCompletedEvent := by
  unfold updateCleanerStatus
  split
  · rfl
  · simp only []
    split_ifs <;> simp [isJobCompletedEvent]

/-- Stats increments add no event. -/
theorem incrementCleanerStats_events (db : DB) (cid : Nat) (completed : Bool) :
    (incrementCleanerStats db cid completed).events = db.events := rfl

/-- Completion rewards add no event. -/
theorem processCompletionRewards_events (db : DB) (now : ℚ) (job : Booking) :
    (processCompletionRewards db now job).events = db.events := by
  have hcpr : ∀ (d : DB) (c b : Nat),
      (completePendingReferral d now c b).events = d.events := by
    intro d c b
    unfold completePendingReferral
    split
    · rfl
    · simp only []
      split_ifs <;>
        simp only [addReferralReward, createCreditTransaction, getOrCreateWallet] <;>
        (try split) <;> rfl
  unfold processCompletionRewards
  rw [hcpr]
  split
  · simp only []
    split_ifs <;>
      simp only [createCreditTransaction, getOrCreateWallet] <;> (try split) <;> rfl
  · rfl

/-- The side-effect phase adds no `JOB_COMPLETED` event (only the
post-commit publication does). -/
theorem executeTransitionActions_events_filter (db : DB) (now : ℚ) (job : Booking)
    (oldStatus newStatus : BookingStatus) (actor : User) (reason : Option String) :
    (executeTransitionActions db now job oldStatus newStatus actor reason).1.events.filter
        isJobCompletedEvent
      = db.events.filter isJobCompletedEvent := by
  unfold executeTransitionActions
  repeat' first
    | rfl
    | rw [updateCleanerStatus_events_filter]
    | rw [incrementCleanerStats_events]
    | rw [processCompletionRewards_events]
    | split
    | simp only []

/-- Counterexample for C1: `fxDBReplay` records a prior successful completion
of job 1 whose audit row carries idempotency key "k1" (scoped to
(job 1, COMPLETED)), yet replaying the state-machine complete call with the
same key does not return the job unchanged — the state machine never consults
the stored key and raises `InvalidTransition` instead. -/
theorem idempotency_key_replay_counterexample :
    fxDBReplay.audits = [fxAuditCompleted] ∧
    fxAuditCompleted.extraData = some "k1" ∧
    fxAuditCompleted.action = "status_change_completed" ∧
    fxAuditCompleted.entityId = 1 ∧
    smCompleteJob fxDBReplay 2100 1 fxCleaner none (some "k1") =
      .error (.invalidTransition "Invalid transition from completed to completed") := by
  exact ⟨rfl, rfl, rfl, rfl, rfl⟩

/-- C1 (amended): the state machine stores the idempotency key only as audit
metadata and never matches on it; API-level idempotency comes from the
status check in the `complete` endpoint, which returns an already-`COMPLETED`
job unchanged.  Hence after a successful complete call, a second complete
call with the same key returns exactly the same state and job — so the two
calls yield one `actual_end_time`, one stats increment, and exactly one
emitted `JOB_COMPLETED` event. -/
theorem api_complete_idempotent :
    ∀ (db : DB) (now now2 : ℚ) (jobId : Nat) (key : Option String) (user : User)
      (job : Booking) (db1 : DB) (job1 : Booking),
      user.role.value = "cleaner" →
      db.jobs.find? (fun j => j.id == jobId) = some job →
      job.cleanerId = some user.id →
      job.status ≠ .completed →
      completeJobAPI db now jobId key user none none = .ok (db1, job1) →
      job1.status = .completed ∧
      job1.actualEndTime = some now ∧
      db1.jobs.find? (fun j => j.id == jobId) = some job1 ∧
      completeJobAPI db1 now2 jobId key user none none = .ok (db1, job1) ∧
      (db1.events.filter isJobCompletedEvent).length
        = (db.events.filter isJobCompletedEvent).length + 1 := by
  intro db now now2 jobId key user job db1 job1 hrole hfind hcid hnc h
  unfold completeJobAPI at h
  rw [hfind] at h
  simp only [hrole, hcid, hnc] at h
  simp only [ne_eq, not_true_eq_false, false_and, if_false, if_neg hnc] at h
  cases hsm : smCompleteJob db now jobId user none key with
  | error e =>
    rw [hsm] at h
    cases e <;> simp at h
  | ok r =>
    rw [hsm] at h
    simp only [Except.ok.injEq] at h
    subst h
    have full := transition_ok_full db now jobId .completed user none
      (some "Job completed by cleaner")
      (key.bind (fun k => if k = "" then none else some k)) job db1 job1 hfind hsm
    have spec := transition_ok_spec db now jobId .completed user none
      (some "Job completed by cleaner")
      (key.bind (fun k => if k = "" then none else some k)) job db1 job1 hfind hsm
    have hst1 : job1.status = .completed := by rw [full.1]
    have hend1 : job1.actualEndTime = some now := by
      rw [full.1]
      simpa using executeTransitionActions_completed_actualEnd db now job job.status
        user (some "Job completed by cleaner")
    have hcid1 : job1.cleanerId = some user.id := by
      rw [full.1]
      simpa [executeTransitionActions_cleanerId] using hcid
    have hkey1 : (fun j => j.id == jobId) job1 = true := by
      have := List.find?_some hfind
      simp only [spec.2.1]
      simpa using this
    have hfind1 : db1.jobs.find? (fun j => j.id == jobId) = some job1 := by
      rw [spec.2.2]
      simpa using updateFirst_find? hfind hkey1
    refine ⟨hst1, hend1, hfind1, ?_, ?_⟩
    · unfold completeJobAPI
      rw [hfind1]
      simp [hrole, hcid1, hst1]
    · rw [full.2.2.2.2]
      have hty : transitionEventType job.status .completed = some .jobCompleted := rfl
      rw [hty]
      simp [List.filter_append, isJobCompletedEvent,
        executeTransitionActions_events_filter]

/-- Witness for C1 (amended): on the concrete in-progress job, a first API
complete with key "k1" succeeds and a second call with the same key returns
exactly the same state; exactly one `JOB_COMPLETED` event exists. -/
theorem api_complete_idempotent_witness :
    fxCleaner.role.value = "cleaner" ∧
    fxDB.jobs.find? (fun j => j.id == 1) = some fxJobInProgress ∧
    fxJobInProgress.cleanerId = some fxCleaner.id ∧
    fxJobInProgress.status ≠ .completed ∧
    ∃ db1 job1,
      completeJobAPI fxDB 2000 1 (some "k1") fxCleaner none none = .ok (db1, job1) ∧
      job1.status = .completed ∧
      job1.actualEndTime = some 2000 ∧
      completeJobAPI db1 2100 1 (some "k1") fxCleaner none none = .ok (db1, job1) ∧
      (db1.events.filter isJobCompletedEvent).length
        = (fxDB.events.filter isJobCompletedEvent).length + 1 := by
  refine ⟨rfl, rfl, rfl, by decide, ?_⟩
  have hex : ∃ r, completeJobAPI fxDB 2000 1 (some "k1") fxCleaner none none
      = .ok r := by
    simp [completeJobAPI, smCompleteJob, transition, validateTransition, canTransition,
      validTransitions, fxDB, fxJobInProgress, fxCleaner, Role.value]
  obtain ⟨⟨db1, job1⟩, h1⟩ := hex
  have h := api_complete_idempotent fxDB 2000 2100 1 (some "k1") fxCleaner
    fxJobInProgress db1 job1 rfl rfl rfl (by decide) h1
  exact ⟨db1, job1, h1, h.1, h.2.1, h.2.2.2.1, h.2.2.2.2⟩

/-- The head of the score-descending merge sort dominates every element of
the original list. -/
theorem mergeSort_head_max (l rest : List CleanerCandidate) (c0 : CleanerCandidate)
    (hms : l.mergeSort (fun a b => decide (b.totalScore ≤ a.totalScore)) = c0 :: rest) :
    ∀ c ∈ l, c.totalScore ≤ c0.totalScore := by
  intro c hc
  have hperm := List.mergeSort_perm l (fun a b => decide (b.totalScore ≤ a.totalScore))
  have hsorted := @List.sorted_mergeSort CleanerCandidate
    (fun a b => decide (b.totalScore ≤ a.totalScore))
    (fun a b c hab hbc => by
      simp only [decide_eq_true_eq] at hab hbc ⊢
      exact le_trans hbc hab)
    (fun a b => by
      simp only [Bool.or_eq_true, decide_eq_true_eq]
      exact le_total b.totalScore a.totalScore)
    l
  rw [hms] at hsorted hperm
  have hc' : c ∈ c0 :: rest := hperm.mem_iff.mpr hc
  rcases List.mem_cons.mp hc' with h | h
  · rw [h]
  · have := (List.pairwise_cons.mp hsorted).1 c h
    simpa using this

/-- C6: every candidate's score is
`0.40·queue_score + 0.30·distance_score + 0.30·rating_score` with
`rating_score = rating/5`, `distance_score = max(0, 1 − km/50)` from the
distance oracle between region centres (0.5 when coordinates are missing) and
the queue formula from the region queue; with candidates present and no
conflicts, `allocate` deterministically commits a candidate whose total score
dominates every other candidate's. -/
theorem allocation_scoring_and_argmax :
    ∀ (hav : ℚ × ℚ → ℚ × ℚ → ℚ) (db : DB) (booking : Booking) (dur now : ℚ)
      (region : Region),
      getBookingRegion booking = some region →
      (∀ c ∈ getScoredCandidates defaultAllocationConfig hav db region
          booking.scheduledDate dur (getBookingCoordinates booking) (some booking.id),
        c.totalScore = (40/100) * c.queueScore + (30/100) * c.distanceScore
          + (30/100) * c.ratingScore ∧
        c.ratingScore = (c.employee.rating.getD 4) / 5 ∧
        (getBookingCoordinates booking = none → c.distanceScore = 1/2) ∧
        (∀ bc, getBookingCoordinates booking = some bc →
          c.distanceScore
            = max 0 (1 - hav bc (regionCoordinates c.employee.regionCode) / 50)) ∧
        c.queuePosition = ((getQueuePositions db region).find?
            (fun p => p.1 == c.employee.id) |>.map Prod.snd).getD 999 ∧
        (∀ maxPos : Nat,
          maxPos = (if (getQueuePositions db region).isEmpty then 1
            else ((getQueuePositions db region).map Prod.snd).max?.getD 0) →
          c.queueScore = if maxPos > 0 then
            1 - (c.queuePosition : ℚ) / ((maxPos : ℚ) + 1) else 1/2)) ∧
      (getScoredCandidates defaultAllocationConfig hav db region
          booking.scheduledDate dur (getBookingCoordinates booking) (some booking.id)
          ≠ [] →
       (∀ c ∈ getScoredCandidates defaultAllocationConfig hav db region
          booking.scheduledDate dur (getBookingCoordinates booking) (some booking.id),
          hasTimeConflict db.jobs c.employee.id booking.scheduledDate (5/2)
            (some booking.id) = false) →
       ∃ best db',
         allocateCleaner defaultAllocationConfig hav db booking dur now
           = (⟨true, some best.employee, 1, false, false, none⟩, db') ∧
         best ∈ getScoredCandidates defaultAllocationConfig hav db region
           booking.scheduledDate dur (getBookingCoordinates booking) (some booking.id) ∧
         (∀ c ∈ getScoredCandidates defaultAllocationConfig hav db region
            booking.scheduledDate dur (getBookingCoordinates booking) (some booking.id),
           c.totalScore ≤ best.totalScore)) := by
  intro hav db booking dur now region hreg
  constructor
  · intro c hc
    unfold getScoredCandidates at hc
    obtain ⟨e, -, hce⟩ := List.mem_map.mp hc
    subst hce
    unfold calculateCandidateScores
    refine ⟨rfl, rfl, ?_, ?_, rfl, ?_⟩
    · intro hco
      simp [hco]
    · intro bc hco
      simp [hco]
    · intro maxPos hm
      subst hm
      rfl
  · intro hne hnoconf
    rcases hms : (getScoredCandidates defaultAllocationConfig hav db region
        booking.scheduledDate dur (getBookingCoordinates booking)
        (some booking.id)).mergeSort
        (fun a b => decide (b.totalScore ≤ a.totalScore)) with _ | ⟨c0, rest⟩
    · exfalso
      have hperm := List.mergeSort_perm (getScoredCandidates defaultAllocationConfig hav
        db region booking.scheduledDate dur (getBookingCoordinates booking)
        (some booking.id)) (fun a b => decide (b.totalScore ≤ a.totalScore))
      rw [hms] at hperm
      exact hne (hperm.symm.eq_nil)
    · have hmax := mergeSort_head_max _ rest c0 hms
      have hperm := List.mergeSort_perm (getScoredCandidates defaultAllocationConfig hav
        db region booking.scheduledDate dur (getBookingCoordinates booking)
        (some booking.id)) (fun a b => decide (b.totalScore ≤ a.totalScore))
      rw [hms] at hperm
      have hc0mem : c0 ∈ getScoredCandidates defaultAllocationConfig hav db region
          booking.scheduledDate dur (getBookingCoordinates booking) (some booking.id) :=
        hperm.mem_iff.mp (List.mem_cons_self c0 rest)
      have hc0conf := hnoconf c0 hc0mem
      have hassign : attemptAssignment db booking c0.employee now
          = some { db with jobs := updateFirst (fun j => j.id == booking.id) (fun j => { j with assignedEmployeeId := some c0.employee.id, assignedAt := some now, slaDeadline := some (booking.scheduledDate + 10) }) db.jobs } := by
        unfold attemptAssignment
        rw [hc0conf]
        simp
      have hne' : (getScoredCandidates defaultAllocationConfig hav db region
          booking.scheduledDate dur (getBookingCoordinates booking)
          (some booking.id)).isEmpty = false := by
        simpa [List.isEmpty_iff] using hne
      refine ⟨c0, { db with jobs := updateFirst (fun j => j.id == booking.id) (fun j => { j with assignedEmployeeId := some c0.employee.id, assignedAt := some now, slaDeadline := some (booking.scheduledDate + 10) }) db.jobs, queueCache := db.queueCache.filter (fun p => p.1 != region) }, ?_, hc0mem, hmax⟩
      unfold allocateCleaner
      rw [hreg]
      simp only [hne', Bool.false_eq_true, false_and, if_false]
      rw [hms]
      show (match tryCandidates db now booking
        (List.take defaultAllocationConfig.maxCandidatesToTry (c0 :: rest)) with
        | (some (db', assigned), tried) => _
        | (none, tried) => _) = _
      have htake : List.take defaultAllocationConfig.maxCandidatesToTry (c0 :: rest)
          = c0 :: List.take 4 rest := rfl
      rw [htake]
      unfold tryCandidates
      rw [hassign]

/-- Witness for C6: on the concrete Dubai pool (cached queue positions 1 and
2, no conflicts), `allocate` commits a candidate dominating both scored
candidates. -/
theorem allocation_scoring_and_argmax_witness :
    getBookingRegion fxBookingUnassigned = some .DXB ∧
    getScoredCandidates defaultAllocationConfig fxHavZero fxAllocDB .DXB
      fxBookingUnassigned.scheduledDate (5/2) (getBookingCoordinates fxBookingUnassigned)
      (some fxBookingUnassigned.id) ≠ [] ∧
    (∀ c ∈ getScoredCandidates defaultAllocationConfig fxHavZero fxAllocDB .DXB
        fxBookingUnassigned.scheduledDate (5/2)
        (getBookingCoordinates fxBookingUnassigned) (some fxBookingUnassigned.id),
      hasTimeConflict fxAllocDB.jobs c.employee.id fxBookingUnassigned.scheduledDate
        (5/2) (some fxBookingUnassigned.id) = false) ∧
    ∃ (best : CleanerCandidate) (db' : DB),
      allocateCleaner defaultAllocationConfig fxHavZero fxAllocDB fxBookingUnassigned
          (5/2) 2000
        = (⟨true, some best.employee, 1, false, false, none⟩, db') ∧
      (∀ c ∈ getScoredCandidates defaultAllocationConfig fxHavZero fxAllocDB .DXB
          fxBookingUnassigned.scheduledDate (5/2)
          (getBookingCoordinates fxBookingUnassigned) (some fxBookingUnassigned.id),
        c.totalScore ≤ best.totalScore) := by
  have hreg : getBookingRegion fxBookingUnassigned = some .DXB := by decide
  have hne : getScoredCandidates defaultAllocationConfig fxHavZero fxAllocDB .DXB
      fxBookingUnassigned.scheduledDate (5/2) (getBookingCoordinates fxBookingUnassigned)
      (some fxBookingUnassigned.id) ≠ [] := by decide
  have hnc : ∀ c ∈ getScoredCandidates defaultAllocationConfig fxHavZero fxAllocDB .DXB
      fxBookingUnassigned.scheduledDate (5/2)
      (getBookingCoordinates fxBookingUnassigned) (some fxBookingUnassigned.id),
      hasTimeConflict fxAllocDB.jobs c.employee.id fxBookingUnassigned.scheduledDate
        (5/2) (some fxBookingUnassigned.id) = false := by decide
  obtain ⟨best, db', heq, hmem, hmax⟩ :=
    (allocation_scoring_and_argmax fxHavZero fxAllocDB fxBookingUnassigned (5/2) 2000
      .DXB hreg).2 hne hnc
  exact ⟨hreg, hne, hnc, best, db', heq, hmax⟩
